import Mathlib

/-!
# Verification of the Mindsky spatial layout / procedural shape engine

Shallow embedding of the core engine of the Mindsky repository:

* the force-directed physics simulator (`applyForces`, `createNodes`,
  drag state) from the physics module;
* the deterministic seeded generator (`SeededRandom` / mulberry32 and
  `createMorphSeed`) from `src/frontend/src/utils/SeededRandom.ts`;
* the procedural shape synthesizer (`computeMorphPuffs`) and the morph
  interpolation step of `update` from `src/frontend/src/components/Cloud.ts`;
* the focus layout engine (`refreshFocusLayout`) from
  `src/frontend/src/components/SkyCanvas.tsx`.

Conventions of the embedding:

* JavaScript numbers are modelled as `ℚ`.  Transcendental functions that the
  source calls (`Math.cos`, `Math.sin`, `Math.sqrt`) are passed as explicit
  function parameters `cosF sinF sqrtF : ℚ → ℚ`; theorems that need facts
  about them (for example `Math.sqrt 0 = 0`, or monotonicity of `Math.sqrt`)
  take those facts as hypotheses.  `Math.PI` is passed as a parameter `piQ`.
* `Math.random()` (used by the simulator's cosmetic jitter and by the initial
  placement of new task nodes) is modelled as an explicit entropy stream
  `rand : ℕ → ℚ` together with a counter threaded through the computation.
* The 32-bit integer semantics of mulberry32 and of the string hash are
  modelled over `ℕ` with explicit reduction `% 2^32`; bitwise `^`, `|`,
  `>>>` and `Math.imul` are mapped to `Nat.xor`/`Nat.lor`/division/
  multiplication-mod-2^32, which agree with the JS `ToUint32`/`ToInt32`
  semantics modulo 2^32 (`charCodeAt` is `Char.toNat`, exact for the
  ASCII/BMP identifiers the application uses).
* In-place mutation of the node array is modelled by explicit state passing:
  the loop of `applyForces` walks the list keeping the already-processed
  prefix (reversed) and the unprocessed suffix, because the inner repulsion
  loop `j = i+1 …` writes velocities of later nodes.
-/

/-- Entity kind of a node (`'milestone' | 'task' | 'subtask'`). -/
inductive NodeType where
  | milestone : NodeType
  | task : NodeType
  | subtask : NodeType
deriving DecidableEq, Repr

/-- A physics node (`CloudNode` of `types.ts`): id, kind, position,
velocity, visual radius, optional parent id. -/
structure CloudNode where
  id : String
  type : NodeType
  x : ℚ
  y : ℚ
  vx : ℚ
  vy : ℚ
  radius : ℚ
  parentId : Option String
deriving DecidableEq, Repr

/-- One circle of a procedural cloud shape (`Puff`): local offset and radius. -/
structure Puff where
  x : ℚ
  y : ℚ
  r : ℚ
deriving DecidableEq, Repr

/-- The singleton drag state of the physics module (`DragState`). -/
structure DragState where
  nodeId : Option String
  x : ℚ
  y : ℚ
  prevX : ℚ
  prevY : ℚ
  vx : ℚ
  vy : ℚ
deriving DecidableEq, Repr

-- Layout constants from `config/layout.ts` (`LAYOUT`).
namespace LAYOUT

def TASK_ORBIT_RADIUS_MIN : ℚ := 120
def TASK_ORBIT_RADIUS_MAX : ℚ := 160
def MILESTONE_RADIUS : ℚ := 80
def TASK_RADIUS_BASE : ℚ := 45
def TASK_RADIUS_PER_SUBTASK : ℚ := 5
def SUBTASK_RADIUS : ℚ := 20
def REPULSION_STRENGTH : ℚ := 150
def DAMPING : ℚ := 92/100
def DRAG_PUSH_RADIUS : ℚ := 50
def DRAG_PUSH_STRENGTH : ℚ := 4
def DRAG_VELOCITY_TRANSFER : ℚ := 3/10
def MAX_VELOCITY : ℚ := 5
def PARENT_ATTRACTION_STRENGTH : ℚ := 1/100
def ORBIT_STIFFNESS : ℚ := 5/1000
def SUBTASK_ORBIT_RADIUS : ℚ := 60

end LAYOUT

/-! ## Seeded generator (`SeededRandom.ts`) -/

/-- `2^32`, the modulus of the 32-bit semantics of the JS bitwise operators. -/
def two32 : ℕ := 4294967296

/-- JS `x ^ y` on 32-bit operands, tracked as the unsigned residue mod `2^32`. -/
def xor32 (a b : ℕ) : ℕ := Nat.xor (a % two32) (b % two32)

/-- JS `x | y` on 32-bit operands (unsigned residue). -/
def or32 (a b : ℕ) : ℕ := Nat.lor (a % two32) (b % two32)

/-- JS `Math.imul x y` (32-bit wrapping multiplication, unsigned residue). -/
def imul32 (a b : ℕ) : ℕ := (a % two32) * (b % two32) % two32

/-- JS `x >>> k` (unsigned right shift: reduce to uint32, then divide). -/
def shr32 (a : ℕ) (k : ℕ) : ℕ := (a % two32) / 2 ^ k

/-- One step of `SeededRandom.next()` (mulberry32): given the current state,
returns the numerator of the produced value (the value is `out / 2^32`)
and the new state.  Mirrors

```
let t = this.state += 0x6D2B79F5;
t = Math.imul(t ^ t >>> 15, t | 1);
t ^= t + Math.imul(t ^ t >>> 7, t | 61);
return ((t ^ t >>> 14) >>> 0) / 4294967296;
```
-/
def mulberryStep (state : ℕ) : ℕ × ℕ :=
  let s := state + 0x6D2B79F5
  let t1 := imul32 (xor32 s (shr32 s 15)) (or32 s 1)
  let t2 := xor32 t1 (t1 + imul32 (xor32 t1 (shr32 t1 7)) (or32 t1 61))
  (xor32 t2 (shr32 t2 14), s)

/-- The rational value in `[0,1)` produced by one `next()` call. -/
def mulberryVal (state : ℕ) : ℚ := ((mulberryStep state).1 : ℚ) / (two32 : ℚ)

/-- New state after one `next()` call. -/
def mulberryNextState (state : ℕ) : ℕ := (mulberryStep state).2

/-- JS `Math.round` for the nonnegative arguments used here:
round half toward positive infinity. -/
def jsRound (q : ℚ) : ℤ := ⌊q + 1/2⌋

/-- The per-character step of the string hash of `createMorphSeed`:
`hash = ((hash << 5) - hash) + char; hash = hash & hash` is congruent to
`31*hash + char` modulo `2^32`. -/
def hashStep (h : ℕ) (c : Char) : ℕ := (31 * h + c.toNat) % two32

/-- `Math.abs(hash) >>> 0` on the signed 32-bit hash value: interpret the
residue in the signed window and take the absolute value. -/
def absInt32 (h : ℕ) : ℕ := if h ≥ 2 ^ 31 then two32 - h else h

/-- `createMorphSeed(nodeId, mode, requiredW, requiredH)`: hash of
`` `${nodeId}-${mode}-${Math.round(w/10)}-${Math.round(h/10)}` ``. -/
def createMorphSeed (nodeId mode : String) (requiredW requiredH : ℚ) : ℕ :=
  let str := nodeId ++ "-" ++ mode ++ "-"
      ++ toString (jsRound (requiredW / 10)) ++ "-" ++ toString (jsRound (requiredH / 10))
  absInt32 (str.data.foldl hashStep 0)

theorem xor32_lt : ∀ a b : ℕ, xor32 a b < two32 := by
  intro a b
  have ha : a % two32 < 2 ^ 32 := Nat.mod_lt _ (by norm_num [two32])
  have hb : b % two32 < 2 ^ 32 := Nat.mod_lt _ (by norm_num [two32])
  have := Nat.xor_lt_two_pow ha hb
  simpa [xor32, two32] using this

/-- Each mulberry32 output numerator is a genuine uint32. -/
theorem mulberryStep_fst_lt (s : ℕ) : (mulberryStep s).1 < two32 := by
  simp only [mulberryStep]
  exact xor32_lt _ _

/-- Each produced random value lies in `[0, 1)`. -/
theorem mulberryVal_mem (s : ℕ) : 0 ≤ mulberryVal s ∧ mulberryVal s < 1 := by
  constructor
  · exact div_nonneg (by positivity) (by norm_num [two32])
  · rw [mulberryVal, div_lt_one (by norm_num [two32])]
    exact_mod_cast mulberryStep_fst_lt s

/-! ## Shape synthesizer (`Cloud.ts`, `computeMorphPuffs`) -/

/-- Ring puffs of the child profile (`Cloud.ts` 998–1016): `arc` is
`actualRingCount`, `i` the loop index, the second argument the remaining
iteration count; the rng state is threaded through the two draws per
iteration (ring noise, then puff radius). -/
def childRingPuffs (cosF sinF : ℚ → ℚ) (piQ R pMin pMax pBase noiseAmp ringDistF : ℚ)
    (arc : ℕ) : ℕ → ℕ → ℕ → List Puff × ℕ
  | _, 0, s => ([], s)
  | i, rem + 1, s =>
    let u1 := mulberryVal s
    let s1 := mulberryNextState s
    let angle := ((i : ℚ) / (arc : ℚ)) * piQ * 2
    let noise := (u1 - 0.5) * noiseAmp
    let distFactor := ringDistF + noise
    let dist := R * distFactor
    let px := cosF angle * dist
    let py := sinF angle * dist
    let u2 := mulberryVal s1
    let s2 := mulberryNextState s1
    let pr := max pMin (min pMax (pBase * 1.2 * (0.70 + u2 * 0.60)))
    let maxAllowedR := R - dist + pr * 0.5
    let finalR := min pr maxAllowedR
    let (ps, sEnd) := childRingPuffs cosF sinF piQ R pMin pMax pBase noiseAmp ringDistF arc (i + 1) rem s2
    (⟨px, py, max pMin finalR⟩ :: ps, sEnd)

/-- Interior puffs of the child profile (`Cloud.ts` 1020–1031): three draws
per iteration (angle, distance, radius); the distance draw goes through
`Math.sqrt`. -/
def childInteriorPuffs (cosF sinF sqrtF : ℚ → ℚ) (piQ R pMin pMax pBase : ℚ) :
    ℕ → ℕ → List Puff × ℕ
  | 0, s => ([], s)
  | rem + 1, s =>
    let u1 := mulberryVal s
    let s1 := mulberryNextState s
    let angle := u1 * piQ * 2
    let u2 := mulberryVal s1
    let s2 := mulberryNextState s1
    let dist := sqrtF u2 * 0.50
    let interiorDist := R * dist
    let u3 := mulberryVal s2
    let s3 := mulberryNextState s2
    let interiorR := max pMin (min pMax (pBase * (0.60 + u3 * 0.80)))
    let (ps, sEnd) := childInteriorPuffs cosF sinF sqrtF piQ R pMin pMax pBase rem s3
    (⟨cosF angle * interiorDist, sinF angle * interiorDist, interiorR⟩ :: ps, sEnd)

/-- Ring puffs of the focused profile (`Cloud.ts` 1034–1043): `den` is
`ringCount - 1`, used both as iteration count and angle denominator. -/
def focusedRingPuffs (cosF sinF : ℚ → ℚ) (piQ R pMin pMax pBase noiseAmp ringDistF : ℚ)
    (den : ℕ) : ℕ → ℕ → ℕ → List Puff × ℕ
  | _, 0, s => ([], s)
  | i, rem + 1, s =>
    let u1 := mulberryVal s
    let s1 := mulberryNextState s
    let angle := ((i : ℚ) / (den : ℚ)) * piQ * 2
    let noise := (u1 - 0.5) * noiseAmp
    let distFactor := ringDistF + noise
    let dist := R * distFactor
    let px := cosF angle * dist
    let py := sinF angle * dist
    let u2 := mulberryVal s1
    let s2 := mulberryNextState s1
    let pr := max pMin (min pMax (pBase * (0.70 + u2 * 0.60)))
    let (ps, sEnd) := focusedRingPuffs cosF sinF piQ R pMin pMax pBase noiseAmp ringDistF den (i + 1) rem s2
    (⟨px, py, pr⟩ :: ps, sEnd)

/-- Corner anchor puffs of the focused profile (`Cloud.ts` 1046–1055):
one radius draw per corner angle. -/
def cornerPuffs (cosF sinF : ℚ → ℚ) (R pMin pMax pBase : ℚ) :
    List ℚ → ℕ → List Puff × ℕ
  | [], s => ([], s)
  | a :: as, s =>
    let u := mulberryVal s
    let s1 := mulberryNextState s
    let cornerDist := R * 0.50
    let cornerR := pBase * (0.85 + u * 0.30)
    let (ps, sEnd) := cornerPuffs cosF sinF R pMin pMax pBase as s1
    (⟨cosF a * cornerDist, sinF a * cornerDist, max pMin (min pMax cornerR)⟩ :: ps, sEnd)

/-- Interior puffs of the focused profile (`Cloud.ts` 1058–1068). -/
def focusedInteriorPuffs (cosF sinF sqrtF : ℚ → ℚ) (piQ R pMin pMax pBase : ℚ) :
    ℕ → ℕ → List Puff × ℕ
  | 0, s => ([], s)
  | rem + 1, s =>
    let u1 := mulberryVal s
    let s1 := mulberryNextState s
    let angle := u1 * piQ * 2
    let u2 := mulberryVal s1
    let s2 := mulberryNextState s1
    let dist := sqrtF u2 * 0.55
    let interiorDist := R * dist
    let u3 := mulberryVal s2
    let s3 := mulberryNextState s2
    let interiorR := max pMin (min pMax (pBase * (0.60 + u3 * 0.80)))
    let (ps, sEnd) := focusedInteriorPuffs cosF sinF sqrtF piQ R pMin pMax pBase rem s3
    (⟨cosF angle * interiorDist, sinF angle * interiorDist, interiorR⟩ :: ps, sEnd)

/-- Body of `computeMorphPuffs` from an explicit rng seed: returns the target
puff list and the coverage radius.  `isChild` selects the profile
(`this.isChildOfFocusedNode`), `basePuffCount` is `this.basePuffs.length`
(1 + the per-type bump count, fixed at node creation). -/
def morphPuffsFromSeed (cosF sinF sqrtF : ℚ → ℚ) (piQ : ℚ)
    (isChild : Bool) (requiredW requiredH : ℚ) (basePuffCount : ℕ) (seed : ℕ) :
    List Puff × ℚ :=
  let margin : ℚ := 25
  let parentCoverageRx := requiredW / 2 + margin
  let parentCoverageRy := requiredH / 2 + margin
  let parentCoverageR := max parentCoverageRx parentCoverageRy
  if isChild then
    let totalPuffCount := max 10 (basePuffCount * 2)
    let interiorRatio : ℚ := 0.65
    let noiseAmp : ℚ := 0.015
    let puffRadiusBase := max (parentCoverageR * 0.27) 18
    let puffRadiusMin := max 8 (parentCoverageR * 0.15)
    let puffRadiusMax := max 16 (parentCoverageR * 0.40)
    let interiorCount := (⌊(totalPuffCount : ℚ) * interiorRatio⌋).toNat
    let ringCount := totalPuffCount - interiorCount
    let centerR := max (puffRadiusMax * 1.2) (parentCoverageR * 0.50)
    let actualRingCount := min 4 ringCount
    let ring := childRingPuffs cosF sinF piQ parentCoverageR puffRadiusMin
      puffRadiusMax puffRadiusBase noiseAmp 0.50 actualRingCount 0 actualRingCount seed
    let actualInteriorCount := totalPuffCount - actualRingCount - 1
    let ints := childInteriorPuffs cosF sinF sqrtF piQ parentCoverageR puffRadiusMin
      puffRadiusMax puffRadiusBase actualInteriorCount ring.2
    (⟨0, 0, centerR⟩ :: (ring.1 ++ ints.1), parentCoverageR)
  else
    let area := piQ * parentCoverageRx * parentCoverageRy
    let totalPuffCount := (min 34 (max 24 (18 + ⌊area / 5500⌋))).toNat
    let interiorRatio : ℚ := 0.80
    let noiseAmp : ℚ := 0.20
    let puffRadiusBase := max (parentCoverageR * 0.27) 18
    let puffRadiusMin : ℚ := 14
    let puffRadiusMax := min (parentCoverageR * 0.45) 40
    let interiorCount := (⌊(totalPuffCount : ℚ) * interiorRatio⌋).toNat
    let ringCount := totalPuffCount - interiorCount
    let centerR := min parentCoverageRx parentCoverageRy * 0.45
    let ring := focusedRingPuffs cosF sinF piQ parentCoverageR puffRadiusMin
      puffRadiusMax puffRadiusBase noiseAmp 0.50 (ringCount - 1) 0 (ringCount - 1) seed
    let cornerAngles := [piQ * 0.25, piQ * 0.75, piQ * 1.25, piQ * 1.75]
    let corners := cornerPuffs cosF sinF parentCoverageR puffRadiusMin
      puffRadiusMax puffRadiusBase cornerAngles ring.2
    let ints := focusedInteriorPuffs cosF sinF sqrtF piQ parentCoverageR puffRadiusMin
      puffRadiusMax puffRadiusBase interiorCount corners.2
    (⟨0, 0, centerR⟩ :: (ring.1 ++ corners.1 ++ ints.1), parentCoverageR)

/-- The mode string selected at `Cloud.ts` 945. -/
def morphMode (isChild : Bool) : String := if isChild then "child" else "focused"

/-- `computeMorphPuffs(requiredW, requiredH)` for a node with id `nodeId`:
derives the deterministic seed from `(nodeId, mode, requiredW, requiredH)`
via `createMorphSeed` and generates the target puffs.  The returned pair is
`(this.targetPuffs, this.coverageR)`. -/
def computeMorphPuffs (cosF sinF sqrtF : ℚ → ℚ) (piQ : ℚ) (nodeId : String)
    (isChild : Bool) (requiredW requiredH : ℚ) (basePuffCount : ℕ) : List Puff × ℚ :=
  morphPuffsFromSeed cosF sinF sqrtF piQ isChild requiredW requiredH basePuffCount
    (createMorphSeed nodeId (morphMode isChild) requiredW requiredH)

/-! ## Force simulator (physics module, `applyForces`) -/

/-- `nodeMap.get id`: the map is filled by `nodes.forEach(node =>
nodeMap.set(node.id, node))`, so a later node with the same id overwrites an
earlier one; the map holds references, so reads during the loop see the
current field values.  Hence: last occurrence by id in the current list. -/
def lookupId (ns : List CloudNode) (i : String) : Option CloudNode :=
  ns.reverse.find? (fun n => n.id = i)

/-- Parent–child gravitational attraction (`applyForces` lines 329–363),
applied to a non-milestone node in free mode.  `cur` is the current state of
the whole node list (the parent's position is read through the node map). -/
def parentAttraction (sqrtF : ℚ → ℚ) (cur : List CloudNode) (a : CloudNode) : CloudNode :=
  match a.parentId with
  | none => a
  | some pid =>
    match lookupId cur pid with
    | none => a
    | some parent =>
      let dx := parent.x - a.x
      let dy := parent.y - a.y
      let dist := sqrtF (dx * dx + dy * dy)
      if dist > 0 then
        let idealOrbit := if a.type = NodeType.subtask then LAYOUT.SUBTASK_ORBIT_RADIUS
          else (LAYOUT.TASK_ORBIT_RADIUS_MIN + LAYOUT.TASK_ORBIT_RADIUS_MAX) / 2
        let orbitDiff := dist - idealOrbit
        let nx := dx / dist
        let ny := dy / dist
        let typeMultiplier : ℚ := if a.type = NodeType.subtask then 0.3 else 1
        let attractionForce := orbitDiff * LAYOUT.ORBIT_STIFFNESS * typeMultiplier
        let gravityForce := LAYOUT.PARENT_ATTRACTION_STRENGTH * typeMultiplier
        { a with vx := a.vx + nx * (attractionForce + gravityForce),
                 vy := a.vy + ny * (attractionForce + gravityForce) }
      else a

/-- Bounding-box test against the drag point used by the in-drag repulsion
skip (`applyForces` lines 374–377). -/
def nearDragPoint (drag : DragState) (n : CloudNode) : Prop :=
  |n.x - drag.x| < LAYOUT.DRAG_PUSH_RADIUS * 1.5 ∧ |n.y - drag.y| < LAYOUT.DRAG_PUSH_RADIUS * 1.5

instance (drag : DragState) (n : CloudNode) : Decidable (nearDragPoint drag n) := by
  unfold nearDragPoint; infer_instance

/-- One iteration of the inner repulsion loop (`applyForces` lines 370–413)
for the pair `(nodeA, nodeB)`: returns the two updated nodes. -/
def repulsionPair (sqrtF : ℚ → ℚ) (drag : DragState) (isDragging : Bool)
    (a b : CloudNode) : CloudNode × CloudNode :=
  if isDragging ∧ ¬ nearDragPoint drag a ∧ ¬ nearDragPoint drag b then (a, b)
  else
    let dx := b.x - a.x
    let dy := b.y - a.y
    let maxDist := a.radius + b.radius + 150
    if |dx| > maxDist ∨ |dy| > maxDist then (a, b)
    else
      let distSq := dx * dx + dy * dy
      let minDist := a.radius + b.radius + 20
      let minDistSq := minDist * minDist
      if distSq < minDistSq ∧ distSq > 0 then
        let dist := sqrtF distSq
        let isDragged := drag.nodeId = some a.id
        let otherIsDragged := drag.nodeId = some b.id
        let dragMultiplier : ℚ := if isDragged ∨ otherIsDragged then 3 else 1
        let force := (minDist - dist) / dist * LAYOUT.REPULSION_STRENGTH * 0.01 * dragMultiplier
        let fx := dx * force
        let fy := dy * force
        (if ¬ isDragged then { a with vx := a.vx - fx, vy := a.vy - fy } else a,
         if ¬ otherIsDragged then { b with vx := b.vx + fx, vy := b.vy + fy } else b)
      else (a, b)

/-- The inner repulsion loop `for (j = i+1; …)`: folds `repulsionPair` over
the unprocessed suffix, returning the updated `nodeA` and suffix. -/
def repulsionSweep (sqrtF : ℚ → ℚ) (drag : DragState) (isDragging : Bool) :
    CloudNode → List CloudNode → CloudNode × List CloudNode
  | a, [] => (a, [])
  | a, b :: bs =>
    let (a1, b1) := repulsionPair sqrtF drag isDragging a b
    let (a2, bs1) := repulsionSweep sqrtF drag isDragging a1 bs
    (a2, b1 :: bs1)

/-- Push/wake force from the dragged cloud (`applyForces` lines 417–436). -/
def dragPush (sqrtF : ℚ → ℚ) (drag : DragState) (a : CloudNode) : CloudNode :=
  if drag.nodeId.isSome then
    let dx := a.x - drag.x
    let dy := a.y - drag.y
    let dist := sqrtF (dx * dx + dy * dy)
    if dist < LAYOUT.DRAG_PUSH_RADIUS ∧ dist > 0 then
      let pushStrength := (1 - dist / LAYOUT.DRAG_PUSH_RADIUS) * LAYOUT.DRAG_PUSH_STRENGTH
      let normalizedDx := dx / dist
      let normalizedDy := dy / dist
      { a with
        vx := a.vx + normalizedDx * pushStrength
          + drag.vx * LAYOUT.DRAG_VELOCITY_TRANSFER * (1 - dist / LAYOUT.DRAG_PUSH_RADIUS),
        vy := a.vy + normalizedDy * pushStrength
          + drag.vy * LAYOUT.DRAG_VELOCITY_TRANSFER * (1 - dist / LAYOUT.DRAG_PUSH_RADIUS) }
    else a
  else a

/-- Subtle jitter when already moving (`applyForces` lines 440–445): consumes
two entropy draws when the current speed exceeds `0.1`; returns the node and
the advanced entropy counter. -/
def jitterStep (sqrtF : ℚ → ℚ) (rand : ℕ → ℚ) (k : ℕ) (a : CloudNode) : CloudNode × ℕ :=
  let currentSpeed := sqrtF (a.vx * a.vx + a.vy * a.vy)
  if currentSpeed > 0.1 then
    ({ a with vx := a.vx + (rand k - 0.5) * 0.05, vy := a.vy + (rand (k + 1) - 0.5) * 0.05 }, k + 2)
  else (a, k)

/-- Velocity cap (`applyForces` lines 448–452): returns the capped node and
the observed speed (which is recorded *before* capping for `maxVelocity`). -/
def capVelocity (sqrtF : ℚ → ℚ) (a : CloudNode) : CloudNode × ℚ :=
  let speed := sqrtF (a.vx * a.vx + a.vy * a.vy)
  (if speed > LAYOUT.MAX_VELOCITY then
    { a with vx := a.vx / speed * LAYOUT.MAX_VELOCITY, vy := a.vy / speed * LAYOUT.MAX_VELOCITY }
   else a, speed)

/-- Position integration and damping (`applyForces` lines 457–460). -/
def integrateNode (a : CloudNode) : CloudNode :=
  { a with x := a.x + a.vx, y := a.y + a.vy,
           vx := a.vx * LAYOUT.DAMPING, vy := a.vy * LAYOUT.DAMPING }

/-- Pre-loop context of one `applyForces` call: the drag state and the data
captured from `focusedNode = nodeMap.get(focusedNodeId)` before the loop
(`applyForces` lines 258–268).  Only the focused node's immutable fields
(`id`, `type`, `parentId`) are consulted, so capturing them by value is
faithful to capturing the object reference. -/
structure ForceCtx where
  sqrtF : ℚ → ℚ
  rand : ℕ → ℚ
  drag : DragState
  focusedNodeId : Option String
  focusedFound : Bool
  parentOfFocusedSubtask : Option String
  inFocusMode : Bool
  subtree : List String

/-- The per-node body of the main loop of `applyForces` in the force-
accumulating branch (free mode, non-dragged, non-locked): attraction,
repulsion sweep over the suffix, drag push, jitter, cap, integrate.
Returns the updated node, updated suffix, observed speed, entropy counter. -/
def forceBody (ctx : ForceCtx) (done : List CloudNode) (a : CloudNode)
    (rest : List CloudNode) (k : ℕ) : CloudNode × List CloudNode × ℚ × ℕ :=
  let cur := done.reverse ++ a :: rest
  let a1 := parentAttraction ctx.sqrtF cur a
  let sw := repulsionSweep ctx.sqrtF ctx.drag ctx.drag.nodeId.isSome a1 rest
  let a3 := dragPush ctx.sqrtF ctx.drag sw.1
  let js := jitterStep ctx.sqrtF ctx.rand k a3
  let cv := capVelocity ctx.sqrtF js.1
  (integrateNode cv.1, sw.2, cv.2, js.2)

/-- The main loop of `applyForces` (lines 270–463), with explicit fuel for
structural recursion (the fuel always equals the length of the remaining
suffix, which `repulsionSweep` preserves).  `done` is the reversed list of
already-processed nodes, `maxV` the running maximum observed speed, `k` the
entropy counter. -/
def forcesGo (ctx : ForceCtx) : ℕ → List CloudNode → List CloudNode → ℚ → ℕ →
    List CloudNode × ℚ
  | 0, done, rest, maxV, _ => (done.reverse ++ rest, maxV)
  | _ + 1, done, [], maxV, _ => (done.reverse, maxV)
  | fuel + 1, done, a :: rest, maxV, k =>
    if ctx.drag.nodeId = some a.id then
      -- dragged node: pinned to the pointer, velocity zeroed, skip forces
      forcesGo ctx fuel ({ a with x := ctx.drag.x, y := ctx.drag.y, vx := 0, vy := 0 } :: done)
        rest maxV k
    else if a.id ∈ ctx.subtree then
      -- focused-subtree node: velocity zeroed, position untouched
      forcesGo ctx fuel ({ a with vx := 0, vy := 0 } :: done) rest maxV k
    else
      let isFocused := ctx.focusedNodeId = some a.id
      let isChildOfFocused := ctx.focusedFound ∧ a.parentId = ctx.focusedNodeId
      let isParentOfFocusedSubtask := ctx.parentOfFocusedSubtask = some a.id
      if ctx.inFocusMode then
        if isFocused ∨ isParentOfFocusedSubtask then forcesGo ctx fuel (a :: done) rest maxV k
        else if isChildOfFocused then forcesGo ctx fuel (a :: done) rest maxV k
        else forcesGo ctx fuel
          ({ a with vx := a.vx * 0.85, vy := a.vy * 0.85 } :: done) rest maxV k
      else
        if isFocused ∨ isParentOfFocusedSubtask then
          forcesGo ctx fuel ({ a with vx := 0, vy := 0 } :: done) rest maxV k
        else if a.type = NodeType.milestone then
          forcesGo ctx fuel ({ a with vx := 0, vy := 0 } :: done) rest maxV k
        else
          let t := forceBody ctx done a rest k
          forcesGo ctx fuel (t.1 :: done) t.2.1 (max maxV t.2.2.1) t.2.2.2

/-- The pre-loop captures of `applyForces` (lines 258–268) bundled into the
loop context. -/
def forceCtx (sqrtF : ℚ → ℚ) (rand : ℕ → ℚ) (drag : DragState)
    (nodes : List CloudNode) (focusedNodeId : Option String)
    (inFocusMode : Bool) (subtree : List String) : ForceCtx :=
  let focusedNode := match focusedNodeId with
    | some fid => lookupId nodes fid
    | none => none
  { sqrtF := sqrtF, rand := rand, drag := drag,
    focusedNodeId := focusedNodeId,
    focusedFound := focusedNode.isSome,
    parentOfFocusedSubtask := match focusedNode with
      | some fn => if fn.type = NodeType.subtask then fn.parentId else none
      | none => none,
    inFocusMode := inFocusMode, subtree := subtree }

/-- `applyForces(nodes, focusedNodeId, inFocusMode, focusedSubtreeIds)`:
returns the updated node list and `maxVelocity`. -/
def applyForces (sqrtF : ℚ → ℚ) (rand : ℕ → ℚ) (drag : DragState)
    (nodes : List CloudNode) (focusedNodeId : Option String)
    (inFocusMode : Bool) (subtree : List String) : List CloudNode × ℚ :=
  forcesGo (forceCtx sqrtF rand drag nodes focusedNodeId inFocusMode subtree)
    nodes.length [] nodes 0 0

/-! ## Morph interpolator (`Cloud.ts`, `update` lines 1188–1239) -/

/-- Morph-animation state of a cloud: the current puff list and the
`morphComplete` flag. -/
structure MorphState where
  current : List Puff
  complete : Bool
deriving DecidableEq, Repr

/-- Puff-count reconciliation (`update` lines 1195–1205): new puffs are
born at the local origin with zero radius, excess puffs are popped. -/
def adjustPuffCount (cur : List Puff) (n : ℕ) : List Puff :=
  cur.take n ++ List.replicate (n - cur.length) ⟨0, 0, 0⟩

/-- Per-puff interpolation (`update` lines 1208–1224): if any component gap
exceeds the `0.3` threshold, move all three components a `morphSpeed *
deltaTime` fraction of the remaining distance; otherwise leave the puff
alone.  Returns the new puff and whether it moved. -/
def interpPuff (dt : ℚ) (c t : Puff) : Puff × Bool :=
  let morphSpeed : ℚ := 0.25
  if |c.x - t.x| > 0.3 ∨ |c.y - t.y| > 0.3 ∨ |c.r - t.r| > 0.3 then
    (⟨c.x + (t.x - c.x) * morphSpeed * dt,
      c.y + (t.y - c.y) * morphSpeed * dt,
      c.r + (t.r - c.r) * morphSpeed * dt⟩, true)
  else (c, false)

/-- One morph tick for a node whose targets are `target` (`update` lines
1188–1229, the part guarded by `!this.morphComplete`; drawing is outside the
model).  When the flag is already set the whole block is skipped. -/
def morphTick (dt : ℚ) (target : List Puff) (st : MorphState) : MorphState :=
  if st.complete then st
  else
    let anyAdded := st.current.length < target.length
    let padded := adjustPuffCount st.current target.length
    let moved := padded.zip target |>.map (fun p => interpPuff dt p.1 p.2)
    let anyMoved := moved.any (·.2)
    { current := moved.map (·.1), complete := ¬ anyAdded ∧ ¬ anyMoved }

/-- Settledness in the sense of the claim: every puff component within the
`0.3` threshold of its target (the condition under which `update` marks
`morphComplete`). -/
def morphSettled (target : List Puff) (st : MorphState) : Prop :=
  st.current.length = target.length ∧
    ∀ p ∈ st.current.zip target,
      |p.1.x - p.2.x| ≤ 0.3 ∧ |p.1.y - p.2.y| ≤ 0.3 ∧ |p.1.r - p.2.r| ≤ 0.3

/-! ## Node graph (`createNodes`) -/

/-- A subtask entity (only the fields `createNodes` reads). -/
structure SubtaskEnt where
  id : String
  completed : Bool
deriving DecidableEq, Repr

/-- A task entity. -/
structure TaskEnt where
  id : String
  subtasks : List SubtaskEnt
deriving DecidableEq, Repr

/-- A milestone entity; `x`/`y` are the optional persisted coordinates. -/
structure MilestoneEnt where
  id : String
  x : Option ℚ
  y : Option ℚ
  tasks : List TaskEnt
deriving DecidableEq, Repr

/-- `existingPositions.get id` (last occurrence wins, as for `nodeMap`). -/
def existingPos (existing : List CloudNode) (i : String) : Option (ℚ × ℚ) :=
  (existing.reverse.find? (fun n => n.id = i)).map (fun n => (n.x, n.y))

/-- Subtask nodes of a focused task (`createNodes` lines 148–178):
deterministic placement for subtasks without a previous position. -/
def subtaskNodes (cosF sinF : ℚ → ℚ) (piQ : ℚ) (existing : List CloudNode)
    (taskId : String) (tx ty taskRadius : ℚ) (subtasks : List SubtaskEnt) : List CloudNode :=
  let len := subtasks.length
  (List.range len).zip subtasks |>.map (fun (k, st) =>
    let (sx, sy) := match existingPos existing st.id with
      | some p => p
      | none =>
        let subtaskAngle := ((k : ℚ) / (max len 1 : ℕ)) * piQ * 2
        let subtaskOrbit := taskRadius + LAYOUT.SUBTASK_RADIUS + 20
        (tx + cosF subtaskAngle * subtaskOrbit, ty + sinF subtaskAngle * subtaskOrbit)
    { id := st.id, type := NodeType.subtask, x := sx, y := sy, vx := 0, vy := 0,
      radius := LAYOUT.SUBTASK_RADIUS, parentId := some taskId })

/-- Whether the subtasks of this task are included (`createNodes` lines
144–148): the task is focused, or one of its subtasks is. -/
def taskExpanded (focusedNode : Option CloudNode) (task : TaskEnt) : Bool :=
  match focusedNode with
  | none => false
  | some fn =>
    fn.id = task.id ∨ (fn.type = NodeType.subtask ∧ task.subtasks.any (fun st => st.id = fn.id))

/-- Task node (with its subtask nodes) for one task of a milestone
(`createNodes` lines 108–179).  A task without a previous position consumes
one entropy draw for its orbit radius.  Returns the nodes and the advanced
entropy counter. -/
def taskNodes (cosF sinF : ℚ → ℚ) (piQ : ℚ) (rand : ℕ → ℚ)
    (focusedNode : Option CloudNode) (existing : List CloudNode)
    (milestoneId : String) (mx my : ℚ) (taskCount : ℕ) :
    ℕ × TaskEnt → ℕ → List CloudNode × ℕ
  | (j, task), k =>
    let incompleteSubtaskCount := (task.subtasks.filter (fun st => ¬ st.completed)).length
    let taskRadius := LAYOUT.TASK_RADIUS_BASE
      + (incompleteSubtaskCount : ℚ) * LAYOUT.TASK_RADIUS_PER_SUBTASK
    let (tx, ty, k1) := match existingPos existing task.id with
      | some p => (p.1, p.2, k)
      | none =>
        let taskAngle := if taskCount > 1 then ((j : ℚ) / (taskCount : ℚ)) * piQ * 2 else 0
        let taskOrbitRadius := LAYOUT.TASK_ORBIT_RADIUS_MIN
          + rand k * (LAYOUT.TASK_ORBIT_RADIUS_MAX - LAYOUT.TASK_ORBIT_RADIUS_MIN)
        (mx + cosF taskAngle * taskOrbitRadius, my + sinF taskAngle * taskOrbitRadius, k + 1)
    let taskNode : CloudNode :=
      { id := task.id, type := NodeType.task, x := tx, y := ty, vx := 0, vy := 0,
        radius := taskRadius, parentId := some milestoneId }
    let subs := if taskExpanded focusedNode task then
        subtaskNodes cosF sinF piQ existing task.id tx ty taskRadius task.subtasks
      else []
    (taskNode :: subs, k1)

/-- The `tasks.forEach` walk for one milestone (`createNodes` lines
108–179), threading the entropy counter. -/
def tasksGo (cosF sinF : ℚ → ℚ) (piQ : ℚ) (rand : ℕ → ℚ)
    (focusedNode : Option CloudNode) (existing : List CloudNode)
    (milestoneId : String) (mx my : ℚ) (taskCount : ℕ) :
    List (ℕ × TaskEnt) → ℕ → List CloudNode × ℕ
  | [], k => ([], k)
  | jt :: rest, k =>
    let ns := taskNodes cosF sinF piQ rand focusedNode existing milestoneId mx my
      taskCount jt k
    let ns2 := tasksGo cosF sinF piQ rand focusedNode existing milestoneId mx my
      taskCount rest ns.2
    (ns.1 ++ ns2.1, ns2.2)

/-- Nodes of one milestone (`createNodes` lines 69–180). -/
def milestoneNodes (cosF sinF : ℚ → ℚ) (piQ : ℚ) (rand : ℕ → ℚ)
    (focusedNode : Option CloudNode) (existing : List CloudNode)
    (width height : ℚ) (milestoneCount : ℕ) :
    ℕ × MilestoneEnt → ℕ → List CloudNode × ℕ
  | (i, m), k =>
    let centerX := width / 2
    let centerY := height / 2
    let (mx, my) := match m.x, m.y with
      | some sx, some sy => (sx, sy)
      | _, _ =>
        let angle := if milestoneCount > 1
          then ((i : ℚ) / (milestoneCount : ℚ)) * piQ * 2 - piQ / 2 else 0
        let orbitRadius := min width height * 0.3
        (if milestoneCount > 1 then centerX + cosF angle * orbitRadius else centerX,
         if milestoneCount > 1 then centerY + sinF angle * orbitRadius else centerY)
    let milestoneNode : CloudNode :=
      { id := m.id, type := NodeType.milestone, x := mx, y := my, vx := 0, vy := 0,
        radius := LAYOUT.MILESTONE_RADIUS, parentId := none }
    let tns := tasksGo cosF sinF piQ rand focusedNode existing m.id mx my
      m.tasks.length ((List.range m.tasks.length).zip m.tasks) k
    (milestoneNode :: tns.1, tns.2)

/-- The `milestones.forEach` walk of `createNodes`. -/
def milestonesGo (cosF sinF : ℚ → ℚ) (piQ : ℚ) (rand : ℕ → ℚ)
    (focusedNode : Option CloudNode) (existing : List CloudNode)
    (width height : ℚ) (milestoneCount : ℕ) :
    List (ℕ × MilestoneEnt) → ℕ → List CloudNode
  | [], _ => []
  | im :: rest, k =>
    let ns := milestoneNodes cosF sinF piQ rand focusedNode existing width height
      milestoneCount im k
    ns.1 ++ milestonesGo cosF sinF piQ rand focusedNode existing width height
      milestoneCount rest ns.2

/-- `createNodes(milestones, width, height, focusedNode, existingNodes)`. -/
def createNodes (cosF sinF : ℚ → ℚ) (piQ : ℚ) (rand : ℕ → ℚ)
    (milestones : List MilestoneEnt) (width height : ℚ)
    (focusedNode : Option CloudNode) (existing : List CloudNode) : List CloudNode :=
  milestonesGo cosF sinF piQ rand focusedNode existing width height milestones.length
    ((List.range milestones.length).zip milestones) 0

/-! ## Focus layout engine (`SkyCanvas.tsx`, `refreshFocusLayout`) -/

/-- Result of one `refreshFocusLayout` computation: the orbit radius (absent
when the focused node has no children), the repositioned children (written
back into the node array by reference), and the authoritative focus layout
map (`focusLayoutPositionsRef`). -/
structure FocusLayout where
  orbitRadius : Option ℚ
  placed : List CloudNode
  layout : List (String × ℚ × ℚ)
deriving Repr

/-- The effective coverage radius of a child (`refreshFocusLayout` lines
174–183): the cloud's `requiredCoverageR` with the JS falsy fallback
`|| (child.radius + 40)`, or the fallback when no cloud exists for the id. -/
def childCoverage (coverage : String → Option ℚ) (c : CloudNode) : ℚ :=
  match coverage c.id with
  | some v => if v = 0 then c.radius + 40 else v
  | none => c.radius + 40

/-- `maxChildR` (`refreshFocusLayout` lines 173–183): fold of the child
coverage radii, starting at `0`. -/
def maxChildCoverage (coverage : String → Option ℚ) (children : List CloudNode) : ℚ :=
  children.foldl (fun m c => max m (childCoverage coverage c)) 0

/-- `children = nodesRef.current.filter(n => n.parentId === focusedNode.id)`
(`refreshFocusLayout` line 136). -/
def focusChildren (nodes : List CloudNode) (focusedId : String) : List CloudNode :=
  nodes.filter (fun n => n.parentId = some focusedId)

/-- `refreshFocusLayout` (`SkyCanvas.tsx` lines 132–218): `coverage` models
`cloudsRef.current.get(id).requiredCoverageR` after the
`computeRequiredSizeNow` calls (`none` when no cloud exists for the id).
Returns `none` when the function bails out (no focused node found among the
nodes, or no cloud for the focused node). -/
def refreshFocusLayout (cosF sinF : ℚ → ℚ) (piQ : ℚ) (nodes : List CloudNode)
    (focusedId : String) (coverage : String → Option ℚ) : Option FocusLayout :=
  let children := focusChildren nodes focusedId
  match nodes.find? (fun n => n.id = focusedId) with
  | none => none
  | some parentNode =>
    if children.isEmpty then
      some ⟨none, [], [(parentNode.id, parentNode.x, parentNode.y)]⟩
    else
      match coverage parentNode.id with
      | none => none
      | some pc =>
        let parentCoverageR := if pc = 0 then parentNode.radius else pc
        let maxChildR := maxChildCoverage coverage children
        let ORBIT_GAP : ℚ := 15
        let minArc := maxChildR * 2 + 30
        let orbitRadius_byArc := ((children.length : ℚ) * minArc) / (2 * piQ)
        let orbitRadius := max (parentCoverageR + ORBIT_GAP + maxChildR) orbitRadius_byArc
        let placed := (List.range children.length).zip children |>.map (fun (i, c) =>
          let angle := -piQ / 2 + ((i : ℚ) / (children.length : ℚ)) * piQ * 2
          { c with x := parentNode.x + cosF angle * orbitRadius,
                   y := parentNode.y + sinF angle * orbitRadius, vx := 0, vy := 0 })
        some ⟨some orbitRadius, placed,
          (parentNode.id, parentNode.x, parentNode.y) :: placed.map (fun c => (c.id, c.x, c.y))⟩

/-! ## Focus-mode behaviour of the simulator -/

/-- What one `applyForces` iteration does to a node when `inFocusMode` is
true (the branch structure of lines 275–310): dragged nodes are pinned,
focused-subtree nodes keep their position with zeroed velocity, focused /
parent-of-focused-subtask / child-of-focused nodes are untouched, and every
other ("background") node keeps its position with velocity damped by 0.85. -/
def focusStep (ctx : ForceCtx) (n : CloudNode) : CloudNode :=
  if ctx.drag.nodeId = some n.id then
    { n with x := ctx.drag.x, y := ctx.drag.y, vx := 0, vy := 0 }
  else if n.id ∈ ctx.subtree then { n with vx := 0, vy := 0 }
  else if ctx.focusedNodeId = some n.id ∨ ctx.parentOfFocusedSubtask = some n.id then n
  else if ctx.focusedFound ∧ n.parentId = ctx.focusedNodeId then n
  else { n with vx := n.vx * 0.85, vy := n.vy * 0.85 }

theorem forcesGo_focus (ctx : ForceCtx) (hf : ctx.inFocusMode = true) :
    ∀ (fuel : ℕ) (rest done : List CloudNode) (maxV : ℚ) (k : ℕ),
      rest.length ≤ fuel →
      forcesGo ctx fuel done rest maxV k = (done.reverse ++ rest.map (focusStep ctx), maxV) := by
  intro fuel
  induction fuel with
  | zero =>
    intro rest done maxV k hlen
    have : rest = [] := List.eq_nil_of_length_eq_zero (Nat.le_zero.mp hlen)
    subst this
    simp [forcesGo]
  | succ fuel ih =>
    intro rest done maxV k hlen
    match rest with
    | [] => simp [forcesGo]
    | a :: rest' =>
      have hlen' : rest'.length ≤ fuel := by
        have : rest'.length + 1 ≤ fuel + 1 := by simpa using hlen
        omega
      rw [forcesGo]
      simp only [hf, if_true]
      by_cases h1 : ctx.drag.nodeId = some a.id
      · rw [if_pos h1, ih rest' _ _ _ hlen']
        simp [focusStep, h1]
      · rw [if_neg h1]
        by_cases h2 : a.id ∈ ctx.subtree
        · rw [if_pos h2, ih rest' _ _ _ hlen']
          simp [focusStep, h1, h2]
        · rw [if_neg h2]
          by_cases h3 : ctx.focusedNodeId = some a.id ∨ ctx.parentOfFocusedSubtask = some a.id
          · rw [if_pos h3, ih rest' _ _ _ hlen']
            simp [focusStep, h1, h2, h3]
          · rw [if_neg h3]
            by_cases h4 : ctx.focusedFound ∧ a.parentId = ctx.focusedNodeId
            · rw [if_pos h4, ih rest' _ _ _ hlen']
              simp [focusStep, h1, h2, h3, h4]
            · rw [if_neg h4, ih rest' _ _ _ hlen']
              simp [focusStep, h1, h2, h3, h4]

/-- C10 — Implicit focus-mode position freeze: with `inFocusMode` true,
`applyForces` performs no position write at all except pinning the dragged
node to the pointer; focused-subtree nodes get velocity zero, focused /
parent-of-focused-subtask / child-of-focused nodes are untouched, every
other node only has its velocity damped by 0.85, and the returned
`maxVelocity` is 0 regardless of the nodes' residual velocities. -/
theorem applyForces_focusMode_freeze (sqrtF : ℚ → ℚ) (rand : ℕ → ℚ) (drag : DragState)
    (nodes : List CloudNode) (fid : Option String) (st : List String) :
    applyForces sqrtF rand drag nodes fid true st =
      (nodes.map (focusStep (forceCtx sqrtF rand drag nodes fid true st)), 0) := by
  unfold applyForces
  exact forcesGo_focus _ rfl nodes.length nodes [] 0 0 le_rfl

/-! ## Frame properties of the simulator loop -/

/-- The immutable fields of a node (never written by `applyForces`). -/
def SameMeta (n m : CloudNode) : Prop :=
  m.id = n.id ∧ m.type = n.type ∧ m.radius = n.radius ∧ m.parentId = n.parentId

/-- `m` is `n` with possibly different velocity: what force accumulation
(repulsion writes into later nodes) can do to a not-yet-processed node. -/
def SameButVel (n m : CloudNode) : Prop := SameMeta n m ∧ m.x = n.x ∧ m.y = n.y

theorem sameMeta_refl (n : CloudNode) : SameMeta n n := ⟨rfl, rfl, rfl, rfl⟩

theorem sameMeta_trans {a b c : CloudNode} (h1 : SameMeta a b) (h2 : SameMeta b c) :
    SameMeta a c :=
  ⟨h2.1.trans h1.1, h2.2.1.trans h1.2.1, h2.2.2.1.trans h1.2.2.1, h2.2.2.2.trans h1.2.2.2⟩

theorem sameButVel_refl (n : CloudNode) : SameButVel n n := ⟨sameMeta_refl n, rfl, rfl⟩

theorem sameButVel_trans {a b c : CloudNode} (h1 : SameButVel a b) (h2 : SameButVel b c) :
    SameButVel a c :=
  ⟨sameMeta_trans h1.1 h2.1, h2.2.1.trans h1.2.1, h2.2.2.trans h1.2.2⟩

theorem repulsionPair_fst_sbv (f : ℚ → ℚ) (d : DragState) (g : Bool) (a b : CloudNode) :
    SameButVel a (repulsionPair f d g a b).1 := by
  simp only [repulsionPair, apply_ite (Prod.fst (α := CloudNode) (β := CloudNode))]
  split_ifs <;> simp [SameButVel, SameMeta]

theorem repulsionPair_snd_sbv (f : ℚ → ℚ) (d : DragState) (g : Bool) (a b : CloudNode) :
    SameButVel b (repulsionPair f d g a b).2 := by
  simp only [repulsionPair, apply_ite (Prod.snd (α := CloudNode) (β := CloudNode))]
  split_ifs <;> simp [SameButVel, SameMeta]

theorem repulsionSweep_fst_sbv (f : ℚ → ℚ) (d : DragState) (g : Bool) :
    ∀ (bs : List CloudNode) (a : CloudNode), SameButVel a (repulsionSweep f d g a bs).1 := by
  intro bs
  induction bs with
  | nil => intro a; exact sameButVel_refl a
  | cons b bs ih =>
    intro a
    rw [repulsionSweep]
    exact sameButVel_trans (repulsionPair_fst_sbv f d g a b) (ih _)

theorem repulsionSweep_snd_sbv (f : ℚ → ℚ) (d : DragState) (g : Bool) :
    ∀ (bs : List CloudNode) (a : CloudNode),
      List.Forall₂ SameButVel bs (repulsionSweep f d g a bs).2 := by
  intro bs
  induction bs with
  | nil => intro a; simp [repulsionSweep]
  | cons b bs ih =>
    intro a
    rw [repulsionSweep]
    exact List.Forall₂.cons (repulsionPair_snd_sbv f d g a b) (ih _)

theorem repulsionSweep_length (f : ℚ → ℚ) (d : DragState) (g : Bool)
    (bs : List CloudNode) (a : CloudNode) :
    (repulsionSweep f d g a bs).2.length = bs.length :=
  (repulsionSweep_snd_sbv f d g bs a).length_eq.symm

theorem parentAttraction_sbv (f : ℚ → ℚ) (cur : List CloudNode) (a : CloudNode) :
    SameButVel a (parentAttraction f cur a) := by
  unfold parentAttraction
  dsimp only
  repeat' split
  all_goals simp [SameButVel, SameMeta]

theorem dragPush_sbv (f : ℚ → ℚ) (d : DragState) (a : CloudNode) :
    SameButVel a (dragPush f d a) := by
  unfold dragPush
  dsimp only
  repeat' split
  all_goals simp [SameButVel, SameMeta]

theorem jitterStep_sbv (f : ℚ → ℚ) (r : ℕ → ℚ) (k : ℕ) (a : CloudNode) :
    SameButVel a (jitterStep f r k a).1 := by
  unfold jitterStep
  dsimp only
  repeat' split
  all_goals simp [SameButVel, SameMeta]

theorem capVelocity_sbv (f : ℚ → ℚ) (a : CloudNode) :
    SameButVel a (capVelocity f a).1 := by
  unfold capVelocity
  dsimp only
  repeat' split
  all_goals simp [SameButVel, SameMeta]

/-- The facts about `Math.sqrt` that the speed bound needs: zero at zero and
monotone on nonnegative arguments (true of the real square root). -/
def SqrtSpec (f : ℚ → ℚ) : Prop :=
  f 0 = 0 ∧ ∀ a b : ℚ, 0 ≤ a → a ≤ b → f a ≤ f b

theorem integrateNode_meta (a : CloudNode) : SameMeta a (integrateNode a) := by
  simp [integrateNode, SameMeta]

theorem forceBody_fst_meta (ctx : ForceCtx) (done : List CloudNode) (a : CloudNode)
    (rest : List CloudNode) (k : ℕ) : SameMeta a (forceBody ctx done a rest k).1 := by
  unfold forceBody
  dsimp only
  refine sameMeta_trans (c := integrateNode _) ?_ (integrateNode_meta _)
  exact (sameButVel_trans (sameButVel_trans (sameButVel_trans (sameButVel_trans
    (parentAttraction_sbv _ _ a) (repulsionSweep_fst_sbv _ _ _ rest _))
    (dragPush_sbv _ _ _)) (jitterStep_sbv _ _ _ _)) (capVelocity_sbv _ _)).1

theorem forceBody_snd_sbv (ctx : ForceCtx) (done : List CloudNode) (a : CloudNode)
    (rest : List CloudNode) (k : ℕ) :
    List.Forall₂ SameButVel rest (forceBody ctx done a rest k).2.1 := by
  unfold forceBody
  dsimp only
  exact repulsionSweep_snd_sbv _ _ _ rest _

theorem forceBody_snd_length (ctx : ForceCtx) (done : List CloudNode) (a : CloudNode)
    (rest : List CloudNode) (k : ℕ) :
    (forceBody ctx done a rest k).2.1.length = rest.length :=
  (forceBody_snd_sbv ctx done a rest k).length_eq.symm

/-- After capping and damping, the measured speed of the integrated node is
at most the speed that was observed for `maxVelocity`: damping multiplies
the squared speed by `0.92² < 1`, and when the cap fires the velocity is
rescaled to magnitude `5 < speed`. -/
theorem capDamp_speed (f : ℚ → ℚ) (hs : SqrtSpec f) (b : CloudNode) :
    f (((capVelocity f b).1.vx * LAYOUT.DAMPING) * ((capVelocity f b).1.vx * LAYOUT.DAMPING)
      + ((capVelocity f b).1.vy * LAYOUT.DAMPING) * ((capVelocity f b).1.vy * LAYOUT.DAMPING))
      ≤ (capVelocity f b).2 := by
  obtain ⟨-, hmono⟩ := hs
  set sq := b.vx * b.vx + b.vy * b.vy with hsqdef
  have hsq : 0 ≤ sq := by
    rw [hsqdef]; exact add_nonneg (mul_self_nonneg _) (mul_self_nonneg _)
  unfold capVelocity
  dsimp only
  rw [← hsqdef]
  split_ifs with h
  · -- cap fires: speed > 5
    have hsp : (5 : ℚ) < f sq := h
    have hpos : (0 : ℚ) < f sq := lt_trans (by norm_num) hsp
    have hne : f sq ≠ 0 := ne_of_gt hpos
    have hval : (b.vx / f sq * LAYOUT.MAX_VELOCITY * LAYOUT.DAMPING)
          * (b.vx / f sq * LAYOUT.MAX_VELOCITY * LAYOUT.DAMPING)
        + (b.vy / f sq * LAYOUT.MAX_VELOCITY * LAYOUT.DAMPING)
          * (b.vy / f sq * LAYOUT.MAX_VELOCITY * LAYOUT.DAMPING)
        = sq * ((23/5) / f sq) * ((23/5) / f sq) := by
      rw [hsqdef]
      field_simp [LAYOUT.MAX_VELOCITY, LAYOUT.DAMPING]
      ring
    rw [hval]
    have hfac : ((23/5) / f sq) * ((23/5) / f sq) ≤ 1 := by
      have h1 : (23/5 : ℚ) / f sq ≤ 1 := by
        rw [div_le_one hpos]
        linarith
      have h0 : (0 : ℚ) ≤ (23/5) / f sq := by positivity
      nlinarith
    have hle : sq * ((23/5) / f sq) * ((23/5) / f sq) ≤ sq := by
      rw [mul_assoc]
      exact mul_le_of_le_one_right hsq hfac
    calc f (sq * ((23/5) / f sq) * ((23/5) / f sq)) ≤ f sq := by
          apply hmono _ _ _ hle
          have h0 : (0 : ℚ) ≤ (23/5) / f sq := div_nonneg (by norm_num) (le_of_lt hpos)
          exact mul_nonneg (mul_nonneg hsq h0) h0
      _ = (capVelocity f b).2 := by unfold capVelocity; rw [← hsqdef]
  · -- no cap
    have hval : (b.vx * LAYOUT.DAMPING) * (b.vx * LAYOUT.DAMPING)
        + (b.vy * LAYOUT.DAMPING) * (b.vy * LAYOUT.DAMPING)
        = sq * (LAYOUT.DAMPING * LAYOUT.DAMPING) := by
      rw [hsqdef]; unfold LAYOUT.DAMPING; ring
    rw [hval]
    have hle : sq * (LAYOUT.DAMPING * LAYOUT.DAMPING) ≤ sq := by
      apply mul_le_of_le_one_right hsq
      norm_num [LAYOUT.DAMPING]
    calc f (sq * (LAYOUT.DAMPING * LAYOUT.DAMPING)) ≤ f sq := by
          apply hmono _ _ _ hle
          exact mul_nonneg hsq (by norm_num [LAYOUT.DAMPING])
      _ = (capVelocity f b).2 := by unfold capVelocity; rw [← hsqdef]

/-- The after-the-tick speed (as measured through the same `sqrtF`) of the
node produced by the force-accumulating branch is at most the speed that the
branch reported for `maxVelocity`. -/
theorem forceBody_speed (ctx : ForceCtx) (hs : SqrtSpec ctx.sqrtF)
    (done : List CloudNode) (a : CloudNode) (rest : List CloudNode) (k : ℕ) :
    ctx.sqrtF ((forceBody ctx done a rest k).1.vx * (forceBody ctx done a rest k).1.vx
      + (forceBody ctx done a rest k).1.vy * (forceBody ctx done a rest k).1.vy)
      ≤ (forceBody ctx done a rest k).2.2.1 := by
  unfold forceBody
  dsimp only
  unfold integrateNode
  dsimp only
  exact capDamp_speed ctx.sqrtF hs _

/-- What one full `applyForces` call guarantees for the node `n` of the
input list paired with the node `m` of the output list, given the final
returned `maxVelocity` value `res`. -/
def ForceStepOK (ctx : ForceCtx) (res : ℚ) (n m : CloudNode) : Prop :=
  SameMeta n m ∧
  (ctx.drag.nodeId = some n.id → m.x = ctx.drag.x ∧ m.y = ctx.drag.y ∧ m.vx = 0 ∧ m.vy = 0) ∧
  (¬ ctx.drag.nodeId = some n.id → n.id ∈ ctx.subtree →
    m.x = n.x ∧ m.y = n.y ∧ m.vx = 0 ∧ m.vy = 0) ∧
  (ctx.inFocusMode = false → ¬ ctx.drag.nodeId = some n.id → n.type = NodeType.milestone →
    m.x = n.x ∧ m.y = n.y ∧ m.vx = 0 ∧ m.vy = 0) ∧
  (ctx.inFocusMode = false → SqrtSpec ctx.sqrtF →
    ctx.sqrtF (m.vx * m.vx + m.vy * m.vy) ≤ res)

/-- A velocity-only update before a node's own iteration does not affect
what the iteration guarantees. -/
theorem forceStepOK_of_sbv {ctx : ForceCtx} {res : ℚ} {n b m : CloudNode}
    (h1 : SameButVel n b) (h2 : ForceStepOK ctx res b m) : ForceStepOK ctx res n m := by
  obtain ⟨⟨hid, hty, hrad, hpar⟩, hx, hy⟩ := h1
  obtain ⟨hm, hdrag, hsub, hmil, hspd⟩ := h2
  refine ⟨sameMeta_trans ⟨hid, hty, hrad, hpar⟩ hm, ?_, ?_, ?_, hspd⟩
  · intro h; exact hdrag (by rw [hid]; exact h)
  · intro h hin
    have := hsub (by rw [hid]; exact h) (by rw [hid]; exact hin)
    exact ⟨this.1.trans hx, this.2.1.trans hy, this.2.2⟩
  · intro hf h htyp
    have := hmil hf (by rw [hid]; exact h) (by rw [hty]; exact htyp)
    exact ⟨this.1.trans hx, this.2.1.trans hy, this.2.2⟩

theorem forall₂_okOfSbv {ctx : ForceCtx} {res : ℚ} :
    ∀ {l1 l2 l3 : List CloudNode}, List.Forall₂ SameButVel l1 l2 →
      List.Forall₂ (ForceStepOK ctx res) l2 l3 → List.Forall₂ (ForceStepOK ctx res) l1 l3 := by
  intro l1 l2 l3 h1
  induction h1 generalizing l3 with
  | nil => intro h2; cases h2; exact List.Forall₂.nil
  | cons hab htail ih =>
    intro h2
    cases h2 with
    | cons hbc htail2 => exact List.Forall₂.cons (forceStepOK_of_sbv hab hbc) (ih htail2)

/-- Master specification of the simulator loop over its remaining suffix:
the returned `maxVelocity` only grows, stays nonnegative, and the output is
the processed prefix followed by a list related pointwise to the suffix by
`ForceStepOK`. -/
theorem forcesGo_free_spec (ctx : ForceCtx) :
    ∀ (fuel : ℕ) (rest done : List CloudNode) (maxV : ℚ) (k : ℕ),
      rest.length ≤ fuel → 0 ≤ maxV →
      maxV ≤ (forcesGo ctx fuel done rest maxV k).2 ∧
      0 ≤ (forcesGo ctx fuel done rest maxV k).2 ∧
      ∃ out, (forcesGo ctx fuel done rest maxV k).1 = done.reverse ++ out ∧
        List.Forall₂ (ForceStepOK ctx (forcesGo ctx fuel done rest maxV k).2) rest out := by
  intro fuel
  induction fuel with
  | zero =>
    intro rest done maxV k hlen hnn
    have : rest = [] := List.eq_nil_of_length_eq_zero (Nat.le_zero.mp hlen)
    subst this
    refine ⟨le_refl _, hnn, [], by simp [forcesGo], List.Forall₂.nil⟩
  | succ fuel ih =>
    intro rest done maxV k hlen hnn
    match rest with
    | [] => exact ⟨le_refl _, hnn, [], by simp [forcesGo], List.Forall₂.nil⟩
    | a :: rest' =>
      have hlen' : rest'.length ≤ fuel := by
        have : rest'.length + 1 ≤ fuel + 1 := by simpa using hlen
        omega
      rw [forcesGo]
      by_cases h1 : ctx.drag.nodeId = some a.id
      · rw [if_pos h1]
        obtain ⟨hle, hres, out, hout, hF2⟩ := ih rest' _ maxV k hlen' hnn
        refine ⟨hle, hres, _ :: out, by simpa using hout, List.Forall₂.cons ?_ hF2⟩
        refine ⟨by simp [SameMeta], fun _ => by simp, fun hc _ => absurd h1 hc, ?_, ?_⟩
        · intro _ hc _; exact absurd h1 hc
        · intro _ hs; simpa [hs.1] using hres
      · rw [if_neg h1]
        by_cases h2 : a.id ∈ ctx.subtree
        · rw [if_pos h2]
          obtain ⟨hle, hres, out, hout, hF2⟩ := ih rest' _ maxV k hlen' hnn
          refine ⟨hle, hres, _ :: out, by simpa using hout, List.Forall₂.cons ?_ hF2⟩
          refine ⟨by simp [SameMeta], fun hc => absurd hc h1, fun _ _ => by simp, ?_, ?_⟩
          · intro _ _ _; simp
          · intro _ hs; simpa [hs.1] using hres
        · rw [if_neg h2]
          by_cases hfm : ctx.inFocusMode
          · rw [if_pos hfm]
            by_cases h3 : ctx.focusedNodeId = some a.id ∨ ctx.parentOfFocusedSubtask = some a.id
            · rw [if_pos h3]
              obtain ⟨hle, hres, out, hout, hF2⟩ := ih rest' _ maxV k hlen' hnn
              refine ⟨hle, hres, _ :: out, by simpa using hout, List.Forall₂.cons ?_ hF2⟩
              exact ⟨sameMeta_refl a, fun hc => absurd hc h1, fun _ hc => absurd hc h2,
                fun hc => absurd hfm (by simp [hc]), fun hc => absurd hfm (by simp [hc])⟩
            · rw [if_neg h3]
              by_cases h4 : ctx.focusedFound ∧ a.parentId = ctx.focusedNodeId
              · rw [if_pos h4]
                obtain ⟨hle, hres, out, hout, hF2⟩ := ih rest' _ maxV k hlen' hnn
                refine ⟨hle, hres, _ :: out, by simpa using hout, List.Forall₂.cons ?_ hF2⟩
                exact ⟨sameMeta_refl a, fun hc => absurd hc h1, fun _ hc => absurd hc h2,
                  fun hc => absurd hfm (by simp [hc]), fun hc => absurd hfm (by simp [hc])⟩
              · rw [if_neg h4]
                obtain ⟨hle, hres, out, hout, hF2⟩ := ih rest' _ maxV k hlen' hnn
                refine ⟨hle, hres, _ :: out, by simpa using hout, List.Forall₂.cons ?_ hF2⟩
                refine ⟨by simp [SameMeta], fun hc => absurd hc h1, fun _ hc => absurd hc h2,
                  fun hc => absurd hfm (by simp [hc]), fun hc => absurd hfm (by simp [hc])⟩
          · rw [if_neg hfm]
            by_cases h3 : ctx.focusedNodeId = some a.id ∨ ctx.parentOfFocusedSubtask = some a.id
            · rw [if_pos h3]
              obtain ⟨hle, hres, out, hout, hF2⟩ := ih rest' _ maxV k hlen' hnn
              refine ⟨hle, hres, _ :: out, by simpa using hout, List.Forall₂.cons ?_ hF2⟩
              refine ⟨by simp [SameMeta], fun hc => absurd hc h1, fun _ _ => by simp, ?_, ?_⟩
              · intro _ _ _; simp
              · intro _ hs; simpa [hs.1] using hres
            · rw [if_neg h3]
              by_cases h4 : a.type = NodeType.milestone
              · rw [if_pos h4]
                obtain ⟨hle, hres, out, hout, hF2⟩ := ih rest' _ maxV k hlen' hnn
                refine ⟨hle, hres, _ :: out, by simpa using hout, List.Forall₂.cons ?_ hF2⟩
                refine ⟨by simp [SameMeta], fun hc => absurd hc h1, fun _ _ => by simp, ?_, ?_⟩
                · intro _ _ _; simp
                · intro _ hs; simpa [hs.1] using hres
              · rw [if_neg h4]
                dsimp only
                have hlen2 : (forceBody ctx done a rest' k).2.1.length ≤ fuel := by
                  rw [forceBody_snd_length]; exact hlen'
                have hnn2 : 0 ≤ max maxV (forceBody ctx done a rest' k).2.2.1 :=
                  le_trans hnn (le_max_left _ _)
                obtain ⟨hle, hres, out, hout, hF2⟩ :=
                  ih (forceBody ctx done a rest' k).2.1 _ _ (forceBody ctx done a rest' k).2.2.2
                    hlen2 hnn2
                have hleMaxV : maxV ≤ (forcesGo ctx fuel ((forceBody ctx done a rest' k).1 :: done)
                    (forceBody ctx done a rest' k).2.1
                    (max maxV (forceBody ctx done a rest' k).2.2.1)
                    (forceBody ctx done a rest' k).2.2.2).2 :=
                  le_trans (le_max_left _ _) hle
                refine ⟨hleMaxV, hres, _ :: out, by simpa using hout, List.Forall₂.cons ?_ ?_⟩
                · refine ⟨forceBody_fst_meta ctx done a rest' k,
                    fun hc => absurd hc h1, fun _ hc => absurd hc h2,
                    fun _ _ hc => absurd hc h4, ?_⟩
                  intro _ hs
                  calc ctx.sqrtF ((forceBody ctx done a rest' k).1.vx
                          * (forceBody ctx done a rest' k).1.vx
                        + (forceBody ctx done a rest' k).1.vy
                          * (forceBody ctx done a rest' k).1.vy)
                      ≤ (forceBody ctx done a rest' k).2.2.1 :=
                        forceBody_speed ctx hs done a rest' k
                    _ ≤ max maxV (forceBody ctx done a rest' k).2.2.1 := le_max_right _ _
                    _ ≤ _ := hle
                · exact forall₂_okOfSbv (forceBody_snd_sbv ctx done a rest' k) hF2

/-! ## Claim C1: focused-subtree exclusivity -/

/-- C1 — Exclusivity invariant: for every `applyForces` call with a
non-empty `focusedSubtreeIds` set, every node whose id is in that set and
which is not the currently dragged node keeps its position unchanged across
the call and ends with velocity zero: the simulator never writes a position
owned by the Focus Layout Map except via explicit drag of that node. -/
theorem applyForces_subtree_exclusion (sqrtF : ℚ → ℚ) (rand : ℕ → ℚ) (drag : DragState)
    (nodes : List CloudNode) (fid : Option String) (ifm : Bool) (st : List String)
    (_hne : st ≠ []) :
    List.Forall₂ (fun n m => n.id ∈ st → ¬ drag.nodeId = some n.id →
        m.x = n.x ∧ m.y = n.y ∧ m.vx = 0 ∧ m.vy = 0)
      nodes (applyForces sqrtF rand drag nodes fid ifm st).1 := by
  obtain ⟨-, -, out, hout, hF2⟩ :=
    forcesGo_free_spec (forceCtx sqrtF rand drag nodes fid ifm st)
      nodes.length nodes [] 0 0 le_rfl le_rfl
  have h1 : (applyForces sqrtF rand drag nodes fid ifm st).1 = out := by
    unfold applyForces; rw [hout]; simp
  rw [h1]
  refine hF2.imp ?_
  intro n m hok hin hnd
  exact hok.2.2.1 (by simpa [forceCtx] using hnd) (by simpa [forceCtx] using hin)

/-- Closed instantiation of the C1 theorem: one task node in the focused
subtree, with trivial entropy/sqrt stubs and no drag. -/
theorem applyForces_subtree_exclusion_witness :
    (["a"] : List String) ≠ [] ∧
    List.Forall₂ (fun (n m : CloudNode) => n.id ∈ ["a"] → ¬ (none : Option String) = some n.id →
        m.x = n.x ∧ m.y = n.y ∧ m.vx = 0 ∧ m.vy = 0)
      [⟨"a", NodeType.task, 3, 4, 1, 2, 45, none⟩]
      (applyForces (fun _ => 0) (fun _ => 0) ⟨none, 0, 0, 0, 0, 0, 0⟩
        [⟨"a", NodeType.task, 3, 4, 1, 2, 45, none⟩] none false ["a"]).1 :=
  ⟨by decide, applyForces_subtree_exclusion (fun _ => 0) (fun _ => 0)
    ⟨none, 0, 0, 0, 0, 0, 0⟩ [⟨"a", NodeType.task, 3, 4, 1, 2, 45, none⟩]
    none false ["a"] (by decide)⟩

/-! ## Claim C5: milestones in free mode -/

/-- C5 (amended) — In free mode every Milestone node that is not the
dragged node keeps its position unchanged across the `applyForces` call and
ends with velocity zero.  Repulsion from an earlier-indexed node may write
into a milestone's velocity mid-step, but the milestone's own iteration
zeroes the velocity before any position integration, so the repulsion and
drag-wake forces never displace a milestone. -/
theorem applyForces_milestone_locked (sqrtF : ℚ → ℚ) (rand : ℕ → ℚ) (drag : DragState)
    (nodes : List CloudNode) (fid : Option String) (st : List String) :
    List.Forall₂ (fun n m => n.type = NodeType.milestone → ¬ drag.nodeId = some n.id →
        m.x = n.x ∧ m.y = n.y ∧ m.vx = 0 ∧ m.vy = 0)
      nodes (applyForces sqrtF rand drag nodes fid false st).1 := by
  obtain ⟨-, -, out, hout, hF2⟩ :=
    forcesGo_free_spec (forceCtx sqrtF rand drag nodes fid false st)
      nodes.length nodes [] 0 0 le_rfl le_rfl
  have h1 : (applyForces sqrtF rand drag nodes fid false st).1 = out := by
    unfold applyForces; rw [hout]; simp
  rw [h1]
  refine hF2.imp ?_
  intro n m hok hty hnd
  exact hok.2.2.2.1 (by simp [forceCtx]) (by simpa [forceCtx] using hnd) hty

/-- Closed instantiation of the C5 amended theorem at the counterexample
input (overlapping task/milestone pair). -/
theorem applyForces_milestone_locked_witness :
    List.Forall₂ (fun (n m : CloudNode) => n.type = NodeType.milestone →
        ¬ (none : Option String) = some n.id →
        m.x = n.x ∧ m.y = n.y ∧ m.vx = 0 ∧ m.vy = 0)
      [⟨"t", NodeType.task, 0, 0, 0, 0, 45, none⟩, ⟨"m", NodeType.milestone, 10, 0, 0, 0, 80, none⟩]
      (applyForces (fun q => if q = 100 then 10 else if q = 41006.25 then 202.5 else 0)
        (fun _ => 1/2) ⟨none, 0, 0, 0, 0, 0, 0⟩
        [⟨"t", NodeType.task, 0, 0, 0, 0, 45, none⟩, ⟨"m", NodeType.milestone, 10, 0, 0, 0, 80, none⟩]
        none false []).1 :=
  applyForces_milestone_locked
    (fun q => if q = 100 then 10 else if q = 41006.25 then 202.5 else 0) (fun _ => 1/2)
    ⟨none, 0, 0, 0, 0, 0, 0⟩
    [⟨"t", NodeType.task, 0, 0, 0, 0, 45, none⟩, ⟨"m", NodeType.milestone, 10, 0, 0, 0, 80, none⟩]
    none []

/-- C5 counterexample — the claim "repulsion and drag-wake forces can
displace a Group node during a step" is false on the code: for the
concrete overlapping task/milestone pair below the repulsion condition
holds and the inner loop does write velocity `202.5` into the milestone
(first conjunct), yet the full `applyForces` step leaves the milestone at
exactly its old position `(10, 0)` with velocity zero (second conjunct):
the milestone's own iteration zeroes its velocity and skips integration. -/
theorem applyForces_milestone_repulsion_cex :
    (repulsionPair (fun q => if q = 100 then 10 else if q = 41006.25 then 202.5 else 0)
        ⟨none, 0, 0, 0, 0, 0, 0⟩ false
        ⟨"t", NodeType.task, 0, 0, 0, 0, 45, none⟩
        ⟨"m", NodeType.milestone, 10, 0, 0, 0, 80, none⟩).2.vx = 202.5 ∧
    ∃ t', (applyForces (fun q => if q = 100 then 10 else if q = 41006.25 then 202.5 else 0)
        (fun _ => 1/2) ⟨none, 0, 0, 0, 0, 0, 0⟩
        [⟨"t", NodeType.task, 0, 0, 0, 0, 45, none⟩,
         ⟨"m", NodeType.milestone, 10, 0, 0, 0, 80, none⟩]
        none false []).1
      = [t', ⟨"m", NodeType.milestone, 10, 0, 0, 0, 80, none⟩] := by
  constructor
  · rw [repulsionPair]
    norm_num [nearDragPoint, LAYOUT.REPULSION_STRENGTH]
    simp
  · obtain ⟨-, -, out, hout, hF2⟩ :=
      forcesGo_free_spec (forceCtx (fun q => if q = 100 then 10 else if q = 41006.25 then 202.5 else 0)
        (fun _ => 1/2) ⟨none, 0, 0, 0, 0, 0, 0⟩
        [⟨"t", NodeType.task, 0, 0, 0, 0, 45, none⟩,
         ⟨"m", NodeType.milestone, 10, 0, 0, 0, 80, none⟩]
        none false [])
        2 [⟨"t", NodeType.task, 0, 0, 0, 0, 45, none⟩,
           ⟨"m", NodeType.milestone, 10, 0, 0, 0, 80, none⟩] [] 0 0 (by simp) le_rfl
    cases hF2 with
    | cons hrel1 htail =>
      cases htail with
      | cons hrel2 hnil =>
        cases hnil
        rename_i m0 m1
        refine ⟨m0, ?_⟩
        have h1 : (applyForces (fun q => if q = 100 then 10 else if q = 41006.25 then 202.5 else 0)
            (fun _ => 1/2) ⟨none, 0, 0, 0, 0, 0, 0⟩
            [⟨"t", NodeType.task, 0, 0, 0, 0, 45, none⟩,
             ⟨"m", NodeType.milestone, 10, 0, 0, 0, 80, none⟩]
            none false []).1 = [m0, m1] := by
          unfold applyForces
          simpa using hout
        rw [h1]
        obtain ⟨⟨hid, hty, hrad, hpar⟩, -, -, hmil, -⟩ := hrel2
        obtain ⟨hx, hy, hvx, hvy⟩ := hmil (by simp [forceCtx]) (by simp [forceCtx]) rfl
        obtain ⟨mid, mty, mx, my, mvx, mvy, mr, mp⟩ := m1
        simp only at hid hty hrad hpar hx hy hvx hvy
        simp [hid, hty, hrad, hpar, hx, hy, hvx, hvy]

/-! ## Claim C4: the returned maxVelocity as a speed bound -/

theorem exists_left_of_mem_forall₂ {α β : Type} {R : α → β → Prop} :
    ∀ {l1 : List α} {l2 : List β}, List.Forall₂ R l1 l2 → ∀ b ∈ l2, ∃ a ∈ l1, R a b := by
  intro l1 l2 h
  induction h with
  | nil => intro b hb; cases hb
  | cons hab htail ih =>
    intro b hb
    rcases List.mem_cons.mp hb with hb | hb
    · subst hb; exact ⟨_, List.mem_cons_self _ _, hab⟩
    · obtain ⟨a, ha, hr⟩ := ih b hb
      exact ⟨a, List.mem_cons_of_mem _ ha, hr⟩

/-- C4 (amended) — In free mode (`inFocusMode` false), for a square root
satisfying `SqrtSpec`, every node of the output has after-tick speed at most
the returned `maxVelocity` (damping and capping only shrink the observed
speed).  In focus mode this fails (see the counterexample): background nodes
keep 85% of their velocity while the function returns 0. -/
theorem applyForces_speed_bound (sqrtF : ℚ → ℚ) (rand : ℕ → ℚ) (drag : DragState)
    (nodes : List CloudNode) (fid : Option String) (st : List String)
    (hs : SqrtSpec sqrtF) :
    ∀ m ∈ (applyForces sqrtF rand drag nodes fid false st).1,
      sqrtF (m.vx * m.vx + m.vy * m.vy) ≤ (applyForces sqrtF rand drag nodes fid false st).2 := by
  obtain ⟨-, -, out, hout, hF2⟩ :=
    forcesGo_free_spec (forceCtx sqrtF rand drag nodes fid false st)
      nodes.length nodes [] 0 0 le_rfl le_rfl
  have h1 : (applyForces sqrtF rand drag nodes fid false st).1 = out := by
    unfold applyForces; rw [hout]; simp
  intro m hm
  rw [h1] at hm
  obtain ⟨n, -, hrel⟩ := exists_left_of_mem_forall₂ hF2 m hm
  have := hrel.2.2.2.2 (by simp [forceCtx]) (by simpa [forceCtx] using hs)
  simpa [forceCtx, applyForces] using this

/-- Closed instantiation of the C4 amended theorem with the constant-zero
square-root stub (which satisfies `SqrtSpec`). -/
theorem applyForces_speed_bound_witness :
    SqrtSpec (fun _ => 0) ∧
    ∀ m ∈ (applyForces (fun _ => 0) (fun _ => 0) ⟨none, 0, 0, 0, 0, 0, 0⟩
        [⟨"b", NodeType.task, 0, 0, 10, 0, 45, none⟩] none false []).1,
      (fun _ => (0 : ℚ)) (m.vx * m.vx + m.vy * m.vy)
        ≤ (applyForces (fun _ => 0) (fun _ => 0) ⟨none, 0, 0, 0, 0, 0, 0⟩
            [⟨"b", NodeType.task, 0, 0, 10, 0, 45, none⟩] none false []).2 :=
  ⟨⟨rfl, fun _ _ _ _ => le_refl 0⟩,
    applyForces_speed_bound (fun _ => 0) (fun _ => 0) ⟨none, 0, 0, 0, 0, 0, 0⟩
      [⟨"b", NodeType.task, 0, 0, 10, 0, 45, none⟩] none []
      ⟨rfl, fun _ _ _ _ => le_refl 0⟩⟩

/-- C4 counterexample — the claim fails on focus-mode inputs: a background
node entering with velocity `(10, 0)` leaves the call with velocity
`(8.5, 0)` (speed squared `72.25`), while the call returns `0`; so the
returned value does not bound every node's after-tick speed.  The identity
function used for `sqrtF` satisfies `SqrtSpec`. -/
theorem applyForces_speed_bound_cex :
    SqrtSpec (fun q => q) ∧
    ∃ m ∈ (applyForces (fun q => q) (fun _ => 0) ⟨none, 0, 0, 0, 0, 0, 0⟩
        [⟨"b", NodeType.task, 0, 0, 10, 0, 45, none⟩] none true []).1,
      ¬ (m.vx * m.vx + m.vy * m.vy
        ≤ (applyForces (fun q => q) (fun _ => 0) ⟨none, 0, 0, 0, 0, 0, 0⟩
            [⟨"b", NodeType.task, 0, 0, 10, 0, 45, none⟩] none true []).2) := by
  have heval : applyForces (fun q => q) (fun _ => 0) ⟨none, 0, 0, 0, 0, 0, 0⟩
      [⟨"b", NodeType.task, 0, 0, 10, 0, 45, none⟩] none true []
      = ([⟨"b", NodeType.task, 0, 0, 8.5, 0, 45, none⟩], 0) := by
    unfold applyForces
    rw [forcesGo_focus _ rfl _ _ _ _ _ (by simp)]
    norm_num [focusStep, forceCtx]
    simp
  refine ⟨⟨rfl, fun a b _ h => h⟩, ⟨"b", NodeType.task, 0, 0, 8.5, 0, 45, none⟩, ?_, ?_⟩
  · rw [heval]; simp
  · rw [heval]; norm_num

/-! ## Claim C7: totality on degenerate inputs -/

/-- C7 — Degenerate inputs: the (total) simulator step is a no-op returning
`0` on an empty node list; a pair at identical coordinates is skipped by the
repulsion computation (the `distSq > 0` guard, no division by zero); a node
exactly at the drag point is skipped by the push/wake force (`dist > 0`
guard); a node exactly at its parent's position is skipped by the parent
attraction (`dist > 0` guard).  The only fact needed about `Math.sqrt` is
`sqrt 0 = 0`. -/
theorem applyForces_degenerate_total (sqrtF : ℚ → ℚ) (h0 : sqrtF 0 = 0) :
    (∀ (rand : ℕ → ℚ) (drag : DragState) (fid : Option String) (ifm : Bool)
      (st : List String), applyForces sqrtF rand drag [] fid ifm st = ([], 0)) ∧
    (∀ (drag : DragState) (g : Bool) (a b : CloudNode), a.x = b.x → a.y = b.y →
      repulsionPair sqrtF drag g a b = (a, b)) ∧
    (∀ (drag : DragState) (a : CloudNode), a.x = drag.x → a.y = drag.y →
      dragPush sqrtF drag a = a) ∧
    (∀ (cur : List CloudNode) (a p : CloudNode) (pid : String),
      a.parentId = some pid → lookupId cur pid = some p → p.x = a.x → p.y = a.y →
      parentAttraction sqrtF cur a = a) := by
  refine ⟨?_, ?_, ?_, ?_⟩
  · intro rand drag fid ifm st
    simp [applyForces, forcesGo]
  · intro drag g a b hx hy
    have hdx : b.x - a.x = 0 := by rw [hx]; ring
    have hdy : b.y - a.y = 0 := by rw [hy]; ring
    rw [repulsionPair]
    simp only [hdx, hdy]
    norm_num
  · intro drag a hx hy
    have hdx : a.x - drag.x = 0 := by rw [hx]; ring
    have hdy : a.y - drag.y = 0 := by rw [hy]; ring
    rw [dragPush]
    simp only [hdx, hdy]
    norm_num [h0]
  · intro cur a p pid hpar hlook hx hy
    have hdx : p.x - a.x = 0 := by rw [hx]; ring
    have hdy : p.y - a.y = 0 := by rw [hy]; ring
    rw [parentAttraction, hpar]
    simp only [hlook, hdx, hdy]
    norm_num [h0]

/-- Closed instantiation of the C7 theorem: zero-node call, an exactly
overlapping pair, a node on the drag point, and a node on its parent. -/
theorem applyForces_degenerate_total_witness :
    ((fun _ => (0 : ℚ)) 0 = 0) ∧
    applyForces (fun _ => 0) (fun _ => 0) ⟨none, 0, 0, 0, 0, 0, 0⟩ [] none false [] = ([], 0) ∧
    repulsionPair (fun _ => 0) ⟨none, 0, 0, 0, 0, 0, 0⟩ false
      ⟨"x", NodeType.task, 1, 2, 0, 0, 45, none⟩ ⟨"y", NodeType.task, 1, 2, 3, 4, 45, none⟩
      = (⟨"x", NodeType.task, 1, 2, 0, 0, 45, none⟩, ⟨"y", NodeType.task, 1, 2, 3, 4, 45, none⟩) ∧
    dragPush (fun _ => 0) ⟨some "z", 1, 2, 0, 0, 0, 0⟩ ⟨"x", NodeType.task, 1, 2, 0, 0, 45, none⟩
      = ⟨"x", NodeType.task, 1, 2, 0, 0, 45, none⟩ ∧
    parentAttraction (fun _ => 0) [⟨"p", NodeType.milestone, 1, 2, 0, 0, 80, none⟩]
      ⟨"x", NodeType.task, 1, 2, 0, 0, 45, some "p"⟩
      = ⟨"x", NodeType.task, 1, 2, 0, 0, 45, some "p"⟩ :=
  ⟨rfl,
   (applyForces_degenerate_total (fun _ => 0) rfl).1 (fun _ => 0) ⟨none, 0, 0, 0, 0, 0, 0⟩
     none false [],
   (applyForces_degenerate_total (fun _ => 0) rfl).2.1 ⟨none, 0, 0, 0, 0, 0, 0⟩ false
     ⟨"x", NodeType.task, 1, 2, 0, 0, 45, none⟩ ⟨"y", NodeType.task, 1, 2, 3, 4, 45, none⟩ rfl rfl,
   (applyForces_degenerate_total (fun _ => 0) rfl).2.2.1 ⟨some "z", 1, 2, 0, 0, 0, 0⟩
     ⟨"x", NodeType.task, 1, 2, 0, 0, 45, none⟩ rfl rfl,
   (applyForces_degenerate_total (fun _ => 0) rfl).2.2.2
     [⟨"p", NodeType.milestone, 1, 2, 0, 0, 80, none⟩]
     ⟨"x", NodeType.task, 1, 2, 0, 0, 45, some "p"⟩
     ⟨"p", NodeType.milestone, 1, 2, 0, 0, 80, none⟩ "p" rfl (by simp [lookupId]) rfl rfl⟩

/-! ## Claim C3: focus layout placement -/

/-- C3 — Focus layout placement: when the focused node is found, has `N ≥ 1`
children and a cloud (measured coverage `pc`), the computed orbit radius is
exactly `max(parentCoverage + gap + maxChildCoverage, N × (2×maxChildCoverage
+ spacing) / (2π))` with `gap = 15` and `spacing = 30` (in particular it is
at least the density-guard term), and the `i`-th child is placed on that
circle at angle `−π/2 + i·(2π/N)` — equal angular spacing `2π/N` starting at
the top — with its velocity zeroed. -/
theorem refreshFocusLayout_orbit (cosF sinF : ℚ → ℚ) (piQ : ℚ)
    (nodes : List CloudNode) (focusedId : String) (coverage : String → Option ℚ)
    (parentNode : CloudNode) (pc : ℚ)
    (hfind : nodes.find? (fun n => n.id = focusedId) = some parentNode)
    (hchild : focusChildren nodes focusedId ≠ [])
    (hcov : coverage parentNode.id = some pc) :
    ∃ R placed lay,
      refreshFocusLayout cosF sinF piQ nodes focusedId coverage = some ⟨some R, placed, lay⟩ ∧
      R = max ((if pc = 0 then parentNode.radius else pc) + 15
            + maxChildCoverage coverage (focusChildren nodes focusedId))
          (((focusChildren nodes focusedId).length : ℚ)
            * (2 * maxChildCoverage coverage (focusChildren nodes focusedId) + 30) / (2 * piQ)) ∧
      ((focusChildren nodes focusedId).length : ℚ)
            * (2 * maxChildCoverage coverage (focusChildren nodes focusedId) + 30) / (2 * piQ) ≤ R ∧
      List.Forall₂ (fun (ic : ℕ × CloudNode) (q : CloudNode) =>
          q = { ic.2 with
                x := parentNode.x + cosF (-piQ / 2
                  + (ic.1 : ℚ) * (2 * piQ / ((focusChildren nodes focusedId).length : ℚ))) * R,
                y := parentNode.y + sinF (-piQ / 2
                  + (ic.1 : ℚ) * (2 * piQ / ((focusChildren nodes focusedId).length : ℚ))) * R,
                vx := 0, vy := 0 })
        ((List.range (focusChildren nodes focusedId).length).zip (focusChildren nodes focusedId))
        placed ∧
      (∀ i : ℕ,
        (-piQ / 2 + ((i + 1 : ℕ) : ℚ) * (2 * piQ / ((focusChildren nodes focusedId).length : ℚ)))
          - (-piQ / 2 + (i : ℚ) * (2 * piQ / ((focusChildren nodes focusedId).length : ℚ)))
          = 2 * piQ / ((focusChildren nodes focusedId).length : ℚ)) := by
  have hN : ((focusChildren nodes focusedId).length : ℚ) ≠ 0 := by
    have : focusChildren nodes focusedId ≠ [] := hchild
    have hlen : (focusChildren nodes focusedId).length ≠ 0 := by
      simpa [List.length_eq_zero] using this
    exact_mod_cast hlen
  have hangle : ∀ i : ℕ,
      ((i : ℚ) / ((focusChildren nodes focusedId).length : ℚ)) * piQ * 2
      = (i : ℚ) * (2 * piQ / ((focusChildren nodes focusedId).length : ℚ)) := by
    intro i
    field_simp
    ring
  have hRshape :
      max ((if pc = 0 then parentNode.radius else pc) + 15
          + maxChildCoverage coverage (focusChildren nodes focusedId))
        (((focusChildren nodes focusedId).length : ℚ)
          * (maxChildCoverage coverage (focusChildren nodes focusedId) * 2 + 30) / (2 * piQ))
      = max ((if pc = 0 then parentNode.radius else pc) + 15
          + maxChildCoverage coverage (focusChildren nodes focusedId))
        (((focusChildren nodes focusedId).length : ℚ)
          * (2 * maxChildCoverage coverage (focusChildren nodes focusedId) + 30) / (2 * piQ)) := by
    ring_nf
  have hie : (focusChildren nodes focusedId).isEmpty = false := by
    simpa [List.isEmpty_iff] using hchild
  unfold refreshFocusLayout
  rw [hfind]
  dsimp only
  rw [hie, hcov]
  dsimp only
  rw [if_neg (by simp)]
  refine ⟨_, _, _, rfl, hRshape, ?_, ?_, ?_⟩
  · rw [hRshape]
    exact le_max_right _ _
  · rw [List.forall₂_map_right_iff, List.forall₂_same]
    intro x hx
    have := hangle x.1
    simp only [this]
  · intro i
    push_cast
    ring

/-- Closed instantiation of the C3 theorem: a focused milestone with
coverage 120 and two task children with coverage 60 each. -/
theorem refreshFocusLayout_orbit_witness :
    (List.find? (fun (n : CloudNode) => n.id = "p")
        [⟨"p", NodeType.milestone, 0, 0, 0, 0, 80, none⟩,
         ⟨"c1", NodeType.task, 5, 5, 1, 1, 45, some "p"⟩,
         ⟨"c2", NodeType.task, 6, 6, 1, 1, 45, some "p"⟩]
      = some ⟨"p", NodeType.milestone, 0, 0, 0, 0, 80, none⟩) ∧
    (focusChildren
        [⟨"p", NodeType.milestone, 0, 0, 0, 0, 80, none⟩,
         ⟨"c1", NodeType.task, 5, 5, 1, 1, 45, some "p"⟩,
         ⟨"c2", NodeType.task, 6, 6, 1, 1, 45, some "p"⟩] "p" ≠ []) ∧
    ((fun id => if id = "p" then some (120 : ℚ) else some 60)
        (⟨"p", NodeType.milestone, 0, 0, 0, 0, 80, none⟩ : CloudNode).id = some 120) ∧
    (∃ R placed lay,
      refreshFocusLayout (fun _ => 0) (fun _ => 0) (355/113)
        [⟨"p", NodeType.milestone, 0, 0, 0, 0, 80, none⟩,
         ⟨"c1", NodeType.task, 5, 5, 1, 1, 45, some "p"⟩,
         ⟨"c2", NodeType.task, 6, 6, 1, 1, 45, some "p"⟩]
        "p" (fun id => if id = "p" then some 120 else some 60) = some ⟨some R, placed, lay⟩ ∧
      R = max ((if (120 : ℚ) = 0 then (80 : ℚ) else 120) + 15
            + maxChildCoverage (fun id => if id = "p" then some 120 else some 60)
              (focusChildren
                [⟨"p", NodeType.milestone, 0, 0, 0, 0, 80, none⟩,
                 ⟨"c1", NodeType.task, 5, 5, 1, 1, 45, some "p"⟩,
                 ⟨"c2", NodeType.task, 6, 6, 1, 1, 45, some "p"⟩] "p"))
          (((focusChildren
                [⟨"p", NodeType.milestone, 0, 0, 0, 0, 80, none⟩,
                 ⟨"c1", NodeType.task, 5, 5, 1, 1, 45, some "p"⟩,
                 ⟨"c2", NodeType.task, 6, 6, 1, 1, 45, some "p"⟩] "p").length : ℚ)
            * (2 * maxChildCoverage (fun id => if id = "p" then some 120 else some 60)
                (focusChildren
                  [⟨"p", NodeType.milestone, 0, 0, 0, 0, 80, none⟩,
                   ⟨"c1", NodeType.task, 5, 5, 1, 1, 45, some "p"⟩,
                   ⟨"c2", NodeType.task, 6, 6, 1, 1, 45, some "p"⟩] "p") + 30)
            / (2 * (355/113)))) := by
  refine ⟨by simp, by simp [focusChildren], by simp, ?_⟩
  obtain ⟨R, placed, lay, hmain, hR, -, -, -⟩ :=
    refreshFocusLayout_orbit (fun _ => 0) (fun _ => 0) (355/113)
      [⟨"p", NodeType.milestone, 0, 0, 0, 0, 80, none⟩,
       ⟨"c1", NodeType.task, 5, 5, 1, 1, 45, some "p"⟩,
       ⟨"c2", NodeType.task, 6, 6, 1, 1, 45, some "p"⟩]
      "p" (fun id => if id = "p" then some 120 else some 60)
      ⟨"p", NodeType.milestone, 0, 0, 0, 0, 80, none⟩ 120
      (by simp) (by simp [focusChildren]) (by simp)
  exact ⟨R, placed, lay, hmain, hR⟩

/-! ## Claim C2: shape-synthesis determinism -/

/-- C2 — Shape-synthesis determinism: the synthesizer's output depends on
the node id only through the pure hash seed `createMorphSeed` (first
conjunct), and any two invocations with the same `(nodeId, mode, width,
height)` tuple (and the same node-construction-time base puff count, which
is itself a pure function of the node's kind) produce identical target puff
lists (second conjunct).  The embedding takes no clock or entropy input
because the source consults none on this path: the only randomness is the
`SeededRandom` instance freshly seeded from the tuple, so the result is
identical across repeated calls and across process restarts. -/
theorem computeMorphPuffs_deterministic (cosF sinF sqrtF : ℚ → ℚ) (piQ : ℚ)
    (nodeId : String) (isChild : Bool) (w h : ℚ) (bc : ℕ) :
    computeMorphPuffs cosF sinF sqrtF piQ nodeId isChild w h bc
      = morphPuffsFromSeed cosF sinF sqrtF piQ isChild w h bc
          (createMorphSeed nodeId (morphMode isChild) w h) ∧
    ∀ (nodeId2 : String) (w2 h2 : ℚ), nodeId2 = nodeId → w2 = w → h2 = h →
      computeMorphPuffs cosF sinF sqrtF piQ nodeId2 isChild w2 h2 bc
        = computeMorphPuffs cosF sinF sqrtF piQ nodeId isChild w h bc := by
  refine ⟨rfl, ?_⟩
  intro nodeId2 w2 h2 h1 h2eq h3
  rw [h1, h2eq, h3]

/-- Closed instantiation of the C2 theorem at a concrete tuple. -/
theorem computeMorphPuffs_deterministic_witness :
    ("a" : String) = "a" ∧ (80 : ℚ) = 80 ∧ (40 : ℚ) = 40 ∧
    computeMorphPuffs (fun _ => 1) (fun _ => 0) (fun q => q) (355/113) "a" true 80 40 7
      = computeMorphPuffs (fun _ => 1) (fun _ => 0) (fun q => q) (355/113) "a" true 80 40 7 :=
  ⟨rfl, rfl, rfl,
    (computeMorphPuffs_deterministic (fun _ => 1) (fun _ => 0) (fun q => q) (355/113)
      "a" true 80 40 7).2 "a" 80 40 rfl rfl rfl⟩

/-! ## Claim C6: coverage radius and (non-)containment -/

/-- For the child profile at zero required size (coverage radius 25), the
first ring puff always pokes out of the coverage circle, whatever the rng
draws: its distance from the origin is at least `25·0.49625 = 12.40625 −
... = 12.3125` and its radius at least `15.12`, so the outer edge exceeds
`27 > 25`.  Stated for the cosine/sine stubs `1`/`0` (which satisfy the
trigonometric identity), so the first component is exactly the distance. -/
theorem childRing_head_violation (piQ : ℚ) (rem s : ℕ) :
    ∃ p tail sEnd,
      childRingPuffs (fun _ => 1) (fun _ => 0) piQ 25 8 16 18 0.015 0.50 4 0 (rem + 1) s
        = (p :: tail, sEnd) ∧ p.y = 0 ∧ 0 ≤ p.x ∧ 25 < p.x + p.r := by
  rw [childRingPuffs]
  obtain ⟨hu1a, hu1b⟩ := mulberryVal_mem s
  obtain ⟨hu2a, hu2b⟩ := mulberryVal_mem (mulberryNextState s)
  dsimp only
  refine ⟨_, _, _, rfl, by norm_num, ?_, ?_⟩
  · dsimp only
    set u1 := mulberryVal s
    nlinarith
  · dsimp only
    set u1 := mulberryVal s
    set u2 := mulberryVal (mulberryNextState s)
    set base := (18 : ℚ) * 1.2 * (0.70 + u2 * 0.60) with hbase
    have hbase_lb : (1512/100 : ℚ) ≤ base := by rw [hbase]; nlinarith
    have hd_ub : (25 : ℚ) * (0.50 + (u1 - 0.5) * 0.015) ≤ 12.6875 := by nlinarith
    have hd_lb : (12.3125 : ℚ) ≤ 25 * (0.50 + (u1 - 0.5) * 0.015) := by nlinarith
    set d := (25 : ℚ) * (0.50 + (u1 - 0.5) * 0.015)
    have hpr_lb : (1512/100 : ℚ) ≤ max 8 (min 16 base) := by
      rcases le_total 16 base with hb | hb
      · rw [min_eq_left hb]; norm_num
      · rw [min_eq_right hb]
        exact le_trans hbase_lb (le_max_right _ _)
    have hpr_ub : max 8 (min 16 base) ≤ 16 := by
      apply max_le (by norm_num) (min_le_left _ _)
    set pr := max 8 (min 16 base)
    have hclamp : pr ≤ 25 - d + pr * 0.5 := by nlinarith
    have hfin : min pr (25 - d + pr * 0.5) = pr := min_eq_left hclamp
    rw [hfin]
    have hrmax : max 8 pr = pr := max_eq_right (le_trans (by norm_num) hpr_lb)
    rw [hrmax]
    nlinarith

/-- C6 counterexample — the containment half of the claim is false: for the
child profile at required size `(0, 0)` (node id `"a"`, base puff count 5)
the coverage radius is `25`, yet the synthesized list contains a puff whose
distance from the node origin plus its own radius exceeds `25`.  The
cosine/sine parameters are instantiated with the constant stubs `1`/`0`,
which satisfy `cos² + sin² = 1`, and for the exhibited puff `y = 0 ∧ 0 ≤ x`,
so its distance from the origin is exactly `p.x`. -/
theorem computeMorphPuffs_containment_cex :
    (∀ a : ℚ, (fun _ => (1 : ℚ)) a * (fun _ => (1 : ℚ)) a
      + (fun _ => (0 : ℚ)) a * (fun _ => (0 : ℚ)) a = 1) ∧
    (computeMorphPuffs (fun _ => 1) (fun _ => 0) (fun q => q) (355/113) "a" true 0 0 5).2 = 25 ∧
    ∃ p ∈ (computeMorphPuffs (fun _ => 1) (fun _ => 0) (fun q => q) (355/113) "a" true 0 0 5).1,
      p.y = 0 ∧ 0 ≤ p.x ∧ 25 < p.x + p.r := by
  refine ⟨by norm_num, by norm_num [computeMorphPuffs, morphPuffsFromSeed], ?_⟩
  obtain ⟨p, tail, sEnd, hring, hy, hx, hviol⟩ :=
    childRing_head_violation (355/113) 3 (createMorphSeed "a" "child" 0 0)
  refine ⟨p, ?_, hy, hx, hviol⟩
  have hlist : (computeMorphPuffs (fun _ => 1) (fun _ => 0) (fun q => q) (355/113)
      "a" true 0 0 5).1
      = ⟨0, 0, 96/5⟩ ::
        ((childRingPuffs (fun _ => 1) (fun _ => 0) (355/113) 25 8 16 18 0.015 0.50 4 0 4
            (createMorphSeed "a" "child" 0 0)).1
          ++ (childInteriorPuffs (fun _ => 1) (fun _ => 0) (fun q => q) (355/113) 25 8 16 18 5
            (childRingPuffs (fun _ => 1) (fun _ => 0) (355/113) 25 8 16 18 0.015 0.50 4 0 4
              (createMorphSeed "a" "child" 0 0)).2).1) := by
    norm_num [computeMorphPuffs, morphPuffsFromSeed, morphMode]
    norm_num [show Int.toNat 6 = 6 from rfl]
  rw [hlist]
  have h4 : (4 : ℕ) = 3 + 1 := by norm_num
  rw [h4, hring]
  simp

/-- Every child-profile ring puff has radius at most `puffRadiusMax` and
outer edge (distance from origin plus radius) at most
`coverage + puffRadiusMax/2`. -/
theorem childRingPuffs_bound (cosF sinF : ℚ → ℚ)
    (hcs : ∀ a, cosF a * cosF a + sinF a * sinF a = 1)
    (piQ R pMin pMax pBase : ℚ) (hR : 25 ≤ R)
    (hmax : pMax = max 16 (R * 0.40)) (hminmax : pMin ≤ pMax) (arc : ℕ) :
    ∀ (rem i s : ℕ),
      ∀ p ∈ (childRingPuffs cosF sinF piQ R pMin pMax pBase 0.015 0.50 arc i rem s).1,
        p.r ≤ R + pMax / 2 ∧
        p.x * p.x + p.y * p.y ≤ (R + pMax / 2 - p.r) * (R + pMax / 2 - p.r) := by
  have hpMax16 : (16 : ℚ) ≤ pMax := by rw [hmax]; exact le_max_left _ _
  have hpMaxub : pMax ≤ R * 0.985 := by
    rw [hmax]
    apply max_le <;> nlinarith
  intro rem
  induction rem with
  | zero => intro i s p hp; simp [childRingPuffs] at hp
  | succ rem ih =>
    intro i s p hp
    rw [childRingPuffs] at hp
    dsimp only at hp
    rcases List.mem_cons.mp hp with hp | hp
    · subst hp
      obtain ⟨hu1a, hu1b⟩ := mulberryVal_mem s
      dsimp only
      set u1 := mulberryVal s
      set u2 := mulberryVal (mulberryNextState s)
      set d := R * (0.50 + (u1 - 0.5) * 0.015) with hd
      have hd0 : 0 ≤ d := by rw [hd]; nlinarith
      have hdub : d ≤ R * 0.5075 := by rw [hd]; nlinarith
      set pr := max pMin (min pMax (pBase * 1.2 * (0.70 + u2 * 0.60))) with hpr
      have hprub : pr ≤ pMax := by
        rw [hpr]; exact max_le hminmax (min_le_left _ _)
      set r := max pMin (min pr (R - d + pr * 0.5)) with hrdef
      have hrub : r ≤ pMax := by
        rw [hrdef]
        apply max_le hminmax (le_trans (min_le_left _ _) hprub)
      have hrB : r ≤ R + pMax / 2 := by nlinarith
      have hsum : d + r ≤ R + pMax / 2 := by nlinarith
      refine ⟨hrB, ?_⟩
      have hxy : cosF (↑i / ↑arc * piQ * 2) * d * (cosF (↑i / ↑arc * piQ * 2) * d)
          + sinF (↑i / ↑arc * piQ * 2) * d * (sinF (↑i / ↑arc * piQ * 2) * d) = d * d := by
        have := hcs (↑i / ↑arc * piQ * 2)
        nlinarith [this]
      simp only [hxy]
      have : d ≤ R + pMax / 2 - r := by linarith
      exact mul_self_le_mul_self hd0 this
    · exact ih (i + 1) (mulberryNextState (mulberryNextState s)) p hp

/-- Every child-profile interior puff has radius at most `puffRadiusMax` and
outer edge at most `coverage + puffRadiusMax/2` (the sqrt-distorted distance
draw stays in `[0, 1)`). -/
theorem childInteriorPuffs_bound (cosF sinF sqrtF : ℚ → ℚ)
    (hcs : ∀ a, cosF a * cosF a + sinF a * sinF a = 1)
    (hsq : ∀ q, 0 ≤ q → q < 1 → 0 ≤ sqrtF q ∧ sqrtF q < 1)
    (piQ R pMin pMax pBase : ℚ) (hR : 25 ≤ R)
    (hmax : pMax = max 16 (R * 0.40)) (hminmax : pMin ≤ pMax) :
    ∀ (rem s : ℕ),
      ∀ p ∈ (childInteriorPuffs cosF sinF sqrtF piQ R pMin pMax pBase rem s).1,
        p.r ≤ R + pMax / 2 ∧
        p.x * p.x + p.y * p.y ≤ (R + pMax / 2 - p.r) * (R + pMax / 2 - p.r) := by
  have hpMax16 : (16 : ℚ) ≤ pMax := by rw [hmax]; exact le_max_left _ _
  have hpMaxR : pMax ≤ R := by
    rw [hmax]
    apply max_le <;> nlinarith
  intro rem
  induction rem with
  | zero => intro s p hp; simp [childInteriorPuffs] at hp
  | succ rem ih =>
    intro s p hp
    rw [childInteriorPuffs] at hp
    dsimp only at hp
    rcases List.mem_cons.mp hp with hp | hp
    · subst hp
      obtain ⟨hu2a, hu2b⟩ := mulberryVal_mem (mulberryNextState s)
      obtain ⟨hs0, hs1⟩ := hsq _ hu2a hu2b
      dsimp only
      set u1 := mulberryVal s
      set u2 := mulberryVal (mulberryNextState s)
      set u3 := mulberryVal (mulberryNextState (mulberryNextState s))
      set d := R * (sqrtF u2 * 0.50) with hd
      have hd0 : 0 ≤ d := by rw [hd]; nlinarith
      have hdub : d ≤ R * 0.50 := by rw [hd]; nlinarith
      set r := max pMin (min pMax (pBase * (0.60 + u3 * 0.80))) with hrdef
      have hrub : r ≤ pMax := by
        rw [hrdef]; exact max_le hminmax (min_le_left _ _)
      have hrB : r ≤ R + pMax / 2 := by nlinarith
      refine ⟨hrB, ?_⟩
      have hxy : cosF (u1 * piQ * 2) * d * (cosF (u1 * piQ * 2) * d)
          + sinF (u1 * piQ * 2) * d * (sinF (u1 * piQ * 2) * d) = d * d := by
        have := hcs (u1 * piQ * 2)
        nlinarith [this]
      simp only [hxy]
      have : d ≤ R + pMax / 2 - r := by nlinarith
      exact mul_self_le_mul_self hd0 this
    · exact ih (mulberryNextState (mulberryNextState (mulberryNextState s))) p hp

/-- C6 (amended) — Coverage radius and bounded overshoot: the synthesizer
always returns `coverageRadius = max(requiredWidth/2, requiredHeight/2) +
margin` (margin 25), so `coverageRadius ≥ max(width, height)/2`; in the
member/child profile, every generated puff (center, ring — whose radius the
code clamps by `coverage − dist + pr·0.5` — and interior) has its outer edge
(distance from origin plus its radius) within `coverageRadius +
puffRadiusMax/2`, where `puffRadiusMax = max(16, 0.40·coverageRadius)`.
Full containment inside the coverage circle does not hold (see the
counterexample).  Stated with squares: `x² + y² ≤ (bound − r)²` together
with `r ≤ bound` says exactly `dist + r ≤ bound`. -/
theorem computeMorphPuffs_coverage (cosF sinF sqrtF : ℚ → ℚ) (piQ : ℚ) (nodeId : String)
    (isChild : Bool) (w h : ℚ) (bc : ℕ) (hw : 0 ≤ w) (hh : 0 ≤ h)
    (hcs : ∀ a, cosF a * cosF a + sinF a * sinF a = 1)
    (hsq : ∀ q, 0 ≤ q → q < 1 → 0 ≤ sqrtF q ∧ sqrtF q < 1) :
    (computeMorphPuffs cosF sinF sqrtF piQ nodeId isChild w h bc).2 = max (w/2) (h/2) + 25 ∧
    (isChild = true →
      ∀ p ∈ (computeMorphPuffs cosF sinF sqrtF piQ nodeId isChild w h bc).1,
        p.r ≤ max (w/2) (h/2) + 25 + max 16 ((max (w/2) (h/2) + 25) * 0.40) / 2 ∧
        p.x * p.x + p.y * p.y
          ≤ (max (w/2) (h/2) + 25 + max 16 ((max (w/2) (h/2) + 25) * 0.40) / 2 - p.r)
            * (max (w/2) (h/2) + 25 + max 16 ((max (w/2) (h/2) + 25) * 0.40) / 2 - p.r)) := by
  have hRR : max (w/2 + 25) (h/2 + 25) = max (w/2) (h/2) + 25 :=
    max_add_add_right (w/2) (h/2) 25
  have hR25 : 25 ≤ max (w/2) (h/2) + 25 := by
    have h1 : (0 : ℚ) ≤ w/2 := by linarith
    have h2 : w/2 ≤ max (w/2) (h/2) := le_max_left _ _
    linarith
  constructor
  · simp only [computeMorphPuffs, morphPuffsFromSeed]
    split_ifs <;> simpa using hRR
  · intro hchild p hp
    subst hchild
    simp only [computeMorphPuffs, morphPuffsFromSeed, if_true] at hp
    rw [hRR] at hp
    revert hp
    generalize hRg : max (w/2) (h/2) + 25 = R at hR25 ⊢
    intro hp
    have hpMax16 : (16 : ℚ) ≤ max 16 (R * 0.40) := le_max_left _ _
    have hpMaxle : max 16 (R * 0.40) ≤ R := by
      apply max_le <;> nlinarith
    rcases List.mem_cons.mp hp with hp | hp
    · subst hp
      constructor
      · dsimp only
        apply max_le <;> nlinarith
      · dsimp only
        simpa using mul_self_nonneg (R + max 16 (R * 0.40) / 2
          - max (max 16 (R * 0.40) * 1.2) (R * 0.50))
    · have hminmax : max 8 (R * 0.15) ≤ max 16 (R * 0.40) := by
        apply max_le
        · linarith
        · apply le_trans _ (le_max_right _ _)
          nlinarith
      rcases List.mem_append.mp hp with hp | hp
      · exact childRingPuffs_bound cosF sinF hcs piQ R (max 8 (R * 0.15)) (max 16 (R * 0.40))
          (max (R * 0.27) 18) hR25 rfl hminmax _ _ _ _ p hp
      · exact childInteriorPuffs_bound cosF sinF sqrtF hcs hsq piQ R (max 8 (R * 0.15))
          (max 16 (R * 0.40)) (max (R * 0.27) 18) hR25 rfl hminmax _ _ p hp

/-- Closed instantiation of the C6 amended theorem (zero required size,
trig stubs satisfying the identity, identity sqrt stub). -/
theorem computeMorphPuffs_coverage_witness :
    (0 : ℚ) ≤ 0 ∧
    (∀ a : ℚ, (fun _ => (1 : ℚ)) a * (fun _ => (1 : ℚ)) a
      + (fun _ => (0 : ℚ)) a * (fun _ => (0 : ℚ)) a = 1) ∧
    (∀ q : ℚ, 0 ≤ q → q < 1 → 0 ≤ (fun q => q) q ∧ (fun q => q) q < 1) ∧
    (computeMorphPuffs (fun _ => 1) (fun _ => 0) (fun q => q) (355/113) "a" true 0 0 5).2
      = max ((0 : ℚ)/2) ((0 : ℚ)/2) + 25 ∧
    (true = true →
      ∀ p ∈ (computeMorphPuffs (fun _ => 1) (fun _ => 0) (fun q => q) (355/113)
          "a" true 0 0 5).1,
        p.r ≤ max ((0:ℚ)/2) ((0:ℚ)/2) + 25 + max 16 ((max ((0:ℚ)/2) ((0:ℚ)/2) + 25) * 0.40) / 2 ∧
        p.x * p.x + p.y * p.y
          ≤ (max ((0:ℚ)/2) ((0:ℚ)/2) + 25
              + max 16 ((max ((0:ℚ)/2) ((0:ℚ)/2) + 25) * 0.40) / 2 - p.r)
            * (max ((0:ℚ)/2) ((0:ℚ)/2) + 25
              + max 16 ((max ((0:ℚ)/2) ((0:ℚ)/2) + 25) * 0.40) / 2 - p.r)) := by
  refine ⟨le_refl 0, by norm_num, fun q h1 h2 => ⟨h1, h2⟩, ?_⟩
  exact computeMorphPuffs_coverage (fun _ => 1) (fun _ => 0) (fun q => q) (355/113) "a"
    true 0 0 5 (le_refl 0) (le_refl 0) (by norm_num) (fun q h1 h2 => ⟨h1, h2⟩)

/-! ## Claim C8: node-graph reconciliation -/

theorem subtaskNodes_prev (cosF sinF : ℚ → ℚ) (piQ : ℚ) (existing : List CloudNode)
    (taskId : String) (tx ty tr : ℚ) (subs : List SubtaskEnt) :
    ∀ n ∈ subtaskNodes cosF sinF piQ existing taskId tx ty tr subs,
      ∀ px py, existingPos existing n.id = some (px, py) → n.x = px ∧ n.y = py := by
  intro n hn px py hpos
  unfold subtaskNodes at hn
  rcases List.mem_map.mp hn with ⟨⟨k, st⟩, -, hmk⟩
  dsimp only at hmk
  rcases hex : existingPos existing st.id with - | ⟨qx, qy⟩ <;> rw [hex] at hmk <;>
    dsimp only at hmk <;> subst hmk <;> dsimp only at hpos ⊢ <;> rw [hex] at hpos
  · cases hpos
  · injection hpos with h
    exact ⟨congrArg Prod.fst h, congrArg Prod.snd h⟩

theorem taskNodes_prev (cosF sinF : ℚ → ℚ) (piQ : ℚ) (rand : ℕ → ℚ)
    (focusedNode : Option CloudNode) (existing : List CloudNode)
    (milestoneId : String) (mx my : ℚ) (taskCount : ℕ) (jt : ℕ × TaskEnt) (k : ℕ) :
    ∀ n ∈ (taskNodes cosF sinF piQ rand focusedNode existing milestoneId mx my
        taskCount jt k).1,
      ∀ px py, existingPos existing n.id = some (px, py) → n.x = px ∧ n.y = py := by
  obtain ⟨j, task⟩ := jt
  intro n hn px py hpos
  unfold taskNodes at hn
  dsimp only at hn
  rcases hex : existingPos existing task.id with - | ⟨qx, qy⟩ <;> rw [hex] at hn <;>
    dsimp only at hn <;> rcases List.mem_cons.mp hn with hn | hn
  · subst hn
    dsimp only at hpos ⊢
    rw [hex] at hpos
    cases hpos
  · split at hn
    · exact subtaskNodes_prev cosF sinF piQ existing task.id _ _ _ task.subtasks n hn px py hpos
    · cases hn
  · subst hn
    dsimp only at hpos ⊢
    rw [hex] at hpos
    injection hpos with h
    exact ⟨congrArg Prod.fst h, congrArg Prod.snd h⟩
  · split at hn
    · exact subtaskNodes_prev cosF sinF piQ existing task.id _ _ _ task.subtasks n hn px py hpos
    · cases hn

theorem tasksGo_prev (cosF sinF : ℚ → ℚ) (piQ : ℚ) (rand : ℕ → ℚ)
    (focusedNode : Option CloudNode) (existing : List CloudNode)
    (milestoneId : String) (mx my : ℚ) (taskCount : ℕ) :
    ∀ (l : List (ℕ × TaskEnt)) (k : ℕ),
      ∀ n ∈ (tasksGo cosF sinF piQ rand focusedNode existing milestoneId mx my
          taskCount l k).1,
        ∀ px py, existingPos existing n.id = some (px, py) → n.x = px ∧ n.y = py := by
  intro l
  induction l with
  | nil => intro k n hn; simp [tasksGo] at hn
  | cons jt rest ih =>
    intro k n hn
    rw [tasksGo] at hn
    dsimp only at hn
    rcases List.mem_append.mp hn with hn | hn
    · exact taskNodes_prev cosF sinF piQ rand focusedNode existing milestoneId mx my
        taskCount jt k n hn
    · exact ih _ n hn

theorem milestonesGo_prev (cosF sinF : ℚ → ℚ) (piQ : ℚ) (rand : ℕ → ℚ)
    (focusedNode : Option CloudNode) (existing : List CloudNode)
    (width height : ℚ) (mc : ℕ) :
    ∀ (l : List (ℕ × MilestoneEnt)) (k : ℕ),
      ∀ n ∈ milestonesGo cosF sinF piQ rand focusedNode existing width height mc l k,
        ¬ n.type = NodeType.milestone →
        ∀ px py, existingPos existing n.id = some (px, py) → n.x = px ∧ n.y = py := by
  intro l
  induction l with
  | nil => intro k n hn; simp [milestonesGo] at hn
  | cons im rest ih =>
    intro k n hn hnm
    rw [milestonesGo] at hn
    rcases List.mem_append.mp hn with hn | hn
    · obtain ⟨i, m⟩ := im
      rw [milestoneNodes] at hn
      dsimp only at hn
      rcases List.mem_cons.mp hn with hn | hn
      · exact absurd (by rw [hn]) hnm
      · exact tasksGo_prev cosF sinF piQ rand focusedNode existing m.id _ _
          m.tasks.length _ _ n hn
    · exact ih _ n hn hnm

theorem milestonesGo_stored (cosF sinF : ℚ → ℚ) (piQ : ℚ) (rand : ℕ → ℚ)
    (focusedNode : Option CloudNode) (existing : List CloudNode)
    (width height : ℚ) (mc : ℕ) :
    ∀ (l : List (ℕ × MilestoneEnt)) (k i : ℕ) (m : MilestoneEnt) (sx sy : ℚ),
      (i, m) ∈ l → m.x = some sx → m.y = some sy →
      (⟨m.id, NodeType.milestone, sx, sy, 0, 0, LAYOUT.MILESTONE_RADIUS, none⟩ : CloudNode)
        ∈ milestonesGo cosF sinF piQ rand focusedNode existing width height mc l k := by
  intro l
  induction l with
  | nil => intro k i m sx sy h; cases h
  | cons im rest ih =>
    intro k i m sx sy hmem hx hy
    rw [milestonesGo]
    rcases List.mem_cons.mp hmem with heq | hmem
    · subst heq
      apply List.mem_append_left
      rw [milestoneNodes]
      dsimp only
      rw [hx, hy]
      dsimp only
      exact List.mem_cons_self _ _
    · exact List.mem_append_right _ (ih _ i m sx sy hmem hx hy)

theorem taskNodes_randIndep (cosF sinF : ℚ → ℚ) (piQ : ℚ) (r1 r2 : ℕ → ℚ)
    (focusedNode : Option CloudNode) (existing : List CloudNode)
    (milestoneId : String) (mx my : ℚ) (taskCount : ℕ) (jt : ℕ × TaskEnt) (k : ℕ)
    (hsome : (existingPos existing jt.2.id).isSome) :
    taskNodes cosF sinF piQ r1 focusedNode existing milestoneId mx my taskCount jt k
      = taskNodes cosF sinF piQ r2 focusedNode existing milestoneId mx my taskCount jt k := by
  obtain ⟨j, task⟩ := jt
  obtain ⟨p, hp⟩ := Option.isSome_iff_exists.mp hsome
  unfold taskNodes
  dsimp only at hp ⊢
  rw [hp]

theorem tasksGo_randIndep (cosF sinF : ℚ → ℚ) (piQ : ℚ) (r1 r2 : ℕ → ℚ)
    (focusedNode : Option CloudNode) (existing : List CloudNode)
    (milestoneId : String) (mx my : ℚ) (taskCount : ℕ) :
    ∀ (l : List (ℕ × TaskEnt)) (k : ℕ),
      (∀ jt ∈ l, (existingPos existing (jt : ℕ × TaskEnt).2.id).isSome) →
      tasksGo cosF sinF piQ r1 focusedNode existing milestoneId mx my taskCount l k
        = tasksGo cosF sinF piQ r2 focusedNode existing milestoneId mx my taskCount l k := by
  intro l
  induction l with
  | nil => intro k _; rfl
  | cons jt rest ih =>
    intro k hcov
    rw [tasksGo, tasksGo]
    have h1 := taskNodes_randIndep cosF sinF piQ r1 r2 focusedNode existing milestoneId
      mx my taskCount jt k (hcov jt (List.mem_cons_self _ _))
    rw [h1, ih _ (fun jt' hjt' => hcov jt' (List.mem_cons_of_mem _ hjt'))]

theorem milestoneNodes_randIndep (cosF sinF : ℚ → ℚ) (piQ : ℚ) (r1 r2 : ℕ → ℚ)
    (focusedNode : Option CloudNode) (existing : List CloudNode)
    (width height : ℚ) (mc : ℕ) (im : ℕ × MilestoneEnt) (k : ℕ)
    (hcov : ∀ t ∈ im.2.tasks, (existingPos existing t.id).isSome) :
    milestoneNodes cosF sinF piQ r1 focusedNode existing width height mc im k
      = milestoneNodes cosF sinF piQ r2 focusedNode existing width height mc im k := by
  obtain ⟨i, m⟩ := im
  unfold milestoneNodes
  dsimp only
  rcases hmx : m.x with - | sx <;> rcases hmy : m.y with - | sy <;>
    dsimp only <;>
    rw [tasksGo_randIndep cosF sinF piQ r1 r2 focusedNode existing m.id _ _ m.tasks.length _ k
      (fun jt hjt => hcov jt.2 (List.of_mem_zip hjt).2)]

theorem milestonesGo_randIndep (cosF sinF : ℚ → ℚ) (piQ : ℚ) (r1 r2 : ℕ → ℚ)
    (focusedNode : Option CloudNode) (existing : List CloudNode)
    (width height : ℚ) (mc : ℕ) :
    ∀ (l : List (ℕ × MilestoneEnt)) (k : ℕ),
      (∀ im ∈ l, ∀ t ∈ (im : ℕ × MilestoneEnt).2.tasks, (existingPos existing t.id).isSome) →
      milestonesGo cosF sinF piQ r1 focusedNode existing width height mc l k
        = milestonesGo cosF sinF piQ r2 focusedNode existing width height mc l k := by
  intro l
  induction l with
  | nil => intro k _; rfl
  | cons im rest ih =>
    intro k hcov
    rw [milestonesGo, milestonesGo]
    rw [milestoneNodes_randIndep cosF sinF piQ r1 r2 focusedNode existing width height mc im k
      (fun t ht => hcov im (List.mem_cons_self _ _) t ht)]
    rw [ih _ (fun im' him' => hcov im' (List.mem_cons_of_mem _ him'))]

theorem exists_index_zip {α : Type} (l : List α) (m : α) (hm : m ∈ l) :
    ∃ i, (i, m) ∈ (List.range l.length).zip l := by
  obtain ⟨i, hi, hget⟩ := List.mem_iff_getElem.mp hm
  refine ⟨i, ?_⟩
  have hlen : i < ((List.range l.length).zip l).length := by
    simpa using hi
  have : ((List.range l.length).zip l)[i] = (i, m) := by
    rw [List.getElem_zip]
    rw [List.getElem_range, hget]
  rw [← this]
  exact List.getElem_mem hlen

/-- C8 (amended) — Node-graph reconciliation: (a) every non-milestone node
of the rebuilt graph whose id occurs in `previousNodes` receives exactly its
previous in-memory position; (b) a milestone with stored coordinates is
rebuilt at those stored coordinates (its previous in-memory position is
ignored); (c) when every task id of the tree occurs in `previousNodes`, the
rebuild is independent of the entropy stream, so calling `createNodes` twice
with the same arguments yields bit-identical node lists. -/
theorem createNodes_reconciliation (cosF sinF : ℚ → ℚ) (piQ : ℚ)
    (milestones : List MilestoneEnt) (width height : ℚ)
    (focusedNode : Option CloudNode) (existing : List CloudNode) :
    (∀ (rand : ℕ → ℚ),
      ∀ n ∈ createNodes cosF sinF piQ rand milestones width height focusedNode existing,
        ¬ n.type = NodeType.milestone →
        ∀ px py, existingPos existing n.id = some (px, py) → n.x = px ∧ n.y = py) ∧
    (∀ (rand : ℕ → ℚ), ∀ m ∈ milestones, ∀ sx sy, m.x = some sx → m.y = some sy →
      (⟨m.id, NodeType.milestone, sx, sy, 0, 0, LAYOUT.MILESTONE_RADIUS, none⟩ : CloudNode)
        ∈ createNodes cosF sinF piQ rand milestones width height focusedNode existing) ∧
    ((∀ m ∈ milestones, ∀ t ∈ m.tasks, (existingPos existing t.id).isSome) →
      ∀ (rand1 rand2 : ℕ → ℚ),
        createNodes cosF sinF piQ rand1 milestones width height focusedNode existing
          = createNodes cosF sinF piQ rand2 milestones width height focusedNode existing) := by
  refine ⟨?_, ?_, ?_⟩
  · intro rand n hn hnm px py hpos
    exact milestonesGo_prev cosF sinF piQ rand focusedNode existing width height
      milestones.length _ _ n hn hnm px py hpos
  · intro rand m hm sx sy hx hy
    obtain ⟨i, hi⟩ := exists_index_zip milestones m hm
    exact milestonesGo_stored cosF sinF piQ rand focusedNode existing width height
      milestones.length _ 0 i m sx sy hi hx hy
  · intro hcov rand1 rand2
    unfold createNodes
    exact milestonesGo_randIndep cosF sinF piQ rand1 rand2 focusedNode existing width height
      milestones.length _ 0
      (fun im him t ht => hcov im.2 (List.of_mem_zip him).2 t ht)

/-- C8 counterexample — the claim "each node in the output whose id occurs
in previousNodes receives exactly its previous in-memory position" is false
for milestone nodes: a milestone with stored coordinates `(0, 0)` whose
previous in-memory node sits at `(5, 5)` is rebuilt at the stored `(0, 0)`,
not at its previous position. -/
theorem createNodes_prev_position_cex :
    existingPos [⟨"m1", NodeType.milestone, 5, 5, 0, 0, 80, none⟩] "m1" = some (5, 5) ∧
    createNodes (fun _ => 1) (fun _ => 0) (355/113) (fun _ => 0)
      [⟨"m1", some 0, some 0, []⟩] 100 100 none
      [⟨"m1", NodeType.milestone, 5, 5, 0, 0, 80, none⟩]
      = [⟨"m1", NodeType.milestone, 0, 0, 0, 0, 80, none⟩] ∧
    (0 : ℚ) ≠ 5 := by
  refine ⟨by simp [existingPos, lookupId], ?_, by norm_num⟩
  norm_num [createNodes, milestonesGo, milestoneNodes, tasksGo, LAYOUT.MILESTONE_RADIUS]

/-- Closed instantiation of the C8 amended theorem at the counterexample
input. -/
theorem createNodes_reconciliation_witness :
    (⟨"m1", NodeType.milestone, 0, 0, 0, 0, LAYOUT.MILESTONE_RADIUS, none⟩ : CloudNode)
      ∈ createNodes (fun _ => 1) (fun _ => 0) (355/113) (fun _ => 0)
        [⟨"m1", some 0, some 0, []⟩] 100 100 none
        [⟨"m1", NodeType.milestone, 5, 5, 0, 0, 80, none⟩] :=
  (createNodes_reconciliation (fun _ => 1) (fun _ => 0) (355/113)
      [⟨"m1", some 0, some 0, []⟩] 100 100 none
      [⟨"m1", NodeType.milestone, 5, 5, 0, 0, 80, none⟩]).2.1
    (fun _ => 0) ⟨"m1", some 0, some 0, []⟩ (List.mem_cons_self _ _) 0 0 rfl rfl

/-! ## Claim C9: morph settlement -/

/-- Per-component gap bound between a current puff and its target. -/
def compGapLe (b : ℚ) (c t : Puff) : Prop :=
  |c.x - t.x| ≤ b ∧ |c.y - t.y| ≤ b ∧ |c.r - t.r| ≤ b

/-- The largest component gap between current and target puff lists
(the "initial distance" that the settlement bound is proportional to). -/
def maxGap (cur tgt : List Puff) : ℚ :=
  (cur.zip tgt).foldl
    (fun m p => max m (max |p.1.x - p.2.x| (max |p.1.y - p.2.y| |p.1.r - p.2.r|))) 0

theorem adjustPuffCount_length (cur : List Puff) (n : ℕ) :
    (adjustPuffCount cur n).length = n := by
  simp [adjustPuffCount]
  omega

theorem adjustPuffCount_eq_self (cur : List Puff) (n : ℕ) (h : cur.length = n) :
    adjustPuffCount cur n = cur := by
  subst h
  simp [adjustPuffCount]

theorem foldl_max_le_init {α : Type} (g : α → ℚ) :
    ∀ (l : List α) (a : ℚ), a ≤ l.foldl (fun m p => max m (g p)) a := by
  intro l
  induction l with
  | nil => intro a; exact le_refl a
  | cons x xs ih =>
    intro a
    calc a ≤ max a (g x) := le_max_left _ _
      _ ≤ xs.foldl (fun m p => max m (g p)) (max a (g x)) := ih _

theorem foldl_max_le_mem {α : Type} (g : α → ℚ) :
    ∀ (l : List α) (a : ℚ) (x : α), x ∈ l → g x ≤ l.foldl (fun m p => max m (g p)) a := by
  intro l
  induction l with
  | nil => intro a x hx; cases hx
  | cons y ys ih =>
    intro a x hx
    rcases List.mem_cons.mp hx with hx | hx
    · subst hx
      calc g x ≤ max a (g x) := le_max_right _ _
        _ ≤ ys.foldl (fun m p => max m (g p)) (max a (g x)) := foldl_max_le_init g ys _
    · exact ih _ x hx

theorem maxGap_nonneg (cur tgt : List Puff) : 0 ≤ maxGap cur tgt :=
  foldl_max_le_init _ _ 0

theorem maxGap_spec (cur tgt : List Puff) :
    ∀ p ∈ cur.zip tgt, compGapLe (maxGap cur tgt) p.1 p.2 := by
  intro p hp
  have h := foldl_max_le_mem
    (fun p : Puff × Puff => max |p.1.x - p.2.x| (max |p.1.y - p.2.y| |p.1.r - p.2.r|))
    (cur.zip tgt) 0 p hp
  refine ⟨le_trans (le_max_left _ _) h, ?_, ?_⟩
  · exact le_trans (le_trans (le_max_left _ _) (le_max_right _ _)) h
  · exact le_trans (le_trans (le_max_right _ _) (le_max_right _ _)) h

theorem morphTick_complete_frozen (dt : ℚ) (tgt : List Puff) (st : MorphState)
    (h : st.complete = true) : morphTick dt tgt st = st := by
  simp [morphTick, h]

theorem morphTick_iterate_frozen (dt : ℚ) (tgt : List Puff) (st : MorphState)
    (h : st.complete = true) : ∀ n, (morphTick dt tgt)^[n] st = st := by
  intro n
  induction n with
  | zero => rfl
  | succ n ih => rw [Function.iterate_succ_apply, morphTick_complete_frozen dt tgt st h, ih]

theorem interpPuff_no_move (dt : ℚ) (c t : Puff) (h : compGapLe 0.3 c t) :
    interpPuff dt c t = (c, false) := by
  obtain ⟨h1, h2, h3⟩ := h
  unfold interpPuff
  rw [if_neg]
  push_neg
  exact ⟨h1, h2, h3⟩

theorem rmax_le (r b : ℚ) (hr0 : 0 ≤ r) (hr : r ≤ 1) (hb : 0 ≤ b) :
    r * max 0.3 b ≤ max 0.3 (r * b) := by
  rcases le_total (0.3 : ℚ) b with hcmp | hcmp
  · rw [max_eq_right hcmp]
    exact le_max_right _ _
  · rw [max_eq_left hcmp]
    have : r * (0.3 : ℚ) ≤ 0.3 := by nlinarith
    exact le_trans this (le_max_left _ _)

theorem interp_step (dt b : ℚ) (hb : 0 ≤ b) (hr : |1 - 0.25 * dt| ≤ 1) :
    ∀ {l1 l2 : List Puff}, List.Forall₂ (compGapLe (max 0.3 b)) l1 l2 →
      List.Forall₂ (compGapLe (max 0.3 (|1 - 0.25 * dt| * b)))
        (((l1.zip l2).map (fun p => interpPuff dt p.1 p.2)).map Prod.fst) l2 ∧
      (((l1.zip l2).map (fun p => interpPuff dt p.1 p.2)).any Prod.snd = false →
        List.Forall₂ (compGapLe 0.3)
          (((l1.zip l2).map (fun p => interpPuff dt p.1 p.2)).map Prod.fst) l2) := by
  have hr0 : 0 ≤ |1 - 0.25 * dt| := abs_nonneg _
  intro l1 l2 h
  induction h with
  | nil => exact ⟨List.Forall₂.nil, fun _ => List.Forall₂.nil⟩
  | @cons a t l1' l2' hab htail ih =>
    rw [List.zip_cons_cons, List.map_cons, List.map_cons]
    by_cases hmv : |a.x - t.x| > 0.3 ∨ |a.y - t.y| > 0.3 ∨ |a.r - t.r| > 0.3
    · -- the puff moves: gaps shrink by the factor |1 - 0.25*dt|
      have hint : interpPuff dt a t
          = (⟨a.x + (t.x - a.x) * 0.25 * dt, a.y + (t.y - a.y) * 0.25 * dt,
              a.r + (t.r - a.r) * 0.25 * dt⟩, true) := by
        unfold interpPuff
        rw [if_pos hmv]
      rw [hint]
      obtain ⟨hx, hy, hz⟩ := hab
      have hgap : ∀ u v : ℚ, |u - v| ≤ max 0.3 b →
          |u + (v - u) * 0.25 * dt - v| ≤ max 0.3 (|1 - 0.25 * dt| * b) := by
        intro u v huv
        have heq : u + (v - u) * 0.25 * dt - v = (u - v) * (1 - 0.25 * dt) := by ring
        rw [heq, abs_mul]
        calc |u - v| * |1 - 0.25 * dt| ≤ max 0.3 b * |1 - 0.25 * dt| := by
              apply mul_le_mul_of_nonneg_right huv hr0
          _ = |1 - 0.25 * dt| * max 0.3 b := by ring
          _ ≤ max 0.3 (|1 - 0.25 * dt| * b) := rmax_le _ _ hr0 hr hb
      refine ⟨List.Forall₂.cons ⟨hgap _ _ hx, hgap _ _ hy, hgap _ _ hz⟩ (ih.1), ?_⟩
      intro hany
      rw [List.any_cons] at hany
      simp at hany
    · -- the puff stays: its gaps were already within the threshold
      push_neg at hmv
      obtain ⟨hx, hy, hz⟩ := hmv
      have hle : compGapLe 0.3 a t := ⟨hx, hy, hz⟩
      rw [interpPuff_no_move dt a t hle]
      refine ⟨List.Forall₂.cons
        ⟨le_trans hle.1 (le_max_left _ _), le_trans hle.2.1 (le_max_left _ _),
         le_trans hle.2.2 (le_max_left _ _)⟩ ih.1, ?_⟩
      intro hany
      rw [List.any_cons] at hany
      simp only [Bool.or_eq_false_iff] at hany
      exact List.Forall₂.cons hle (ih.2 hany.2)

theorem morphTick_step (dt b : ℚ) (hb : 0 ≤ b) (hr : |1 - 0.25 * dt| ≤ 1)
    (tgt : List Puff) (st : MorphState) (hc : st.complete = false)
    (h : List.Forall₂ (compGapLe (max 0.3 b)) (adjustPuffCount st.current tgt.length) tgt) :
    List.Forall₂ (compGapLe (max 0.3 (|1 - 0.25 * dt| * b)))
      (morphTick dt tgt st).current tgt ∧
    ((morphTick dt tgt st).complete = true → morphSettled tgt (morphTick dt tgt st)) := by
  have key := interp_step dt b hb hr h
  have hcur : (morphTick dt tgt st).current
      = (((adjustPuffCount st.current tgt.length).zip tgt).map
          (fun p => interpPuff dt p.1 p.2)).map Prod.fst := by
    simp [morphTick, hc]
  refine ⟨hcur ▸ key.1, ?_⟩
  intro hcomp
  have hany : (((adjustPuffCount st.current tgt.length).zip tgt).map
      (fun p => interpPuff dt p.1 p.2)).any Prod.snd = false := by
    simp [morphTick, hc] at hcomp
    simpa using hcomp.2
  have hall := key.2 hany
  rw [← hcur] at hall
  exact ⟨hall.length_eq, fun p hp =>
    (List.forall₂_iff_zip.mp hall).2 (by exact hp)⟩

theorem interp_zip_no_move (dt : ℚ) :
    ∀ {l1 l2 : List Puff}, List.Forall₂ (compGapLe 0.3) l1 l2 →
      (l1.zip l2).map (fun p => interpPuff dt p.1 p.2)
        = l1.map (fun c => ((c, false) : Puff × Bool)) := by
  intro l1 l2 h
  induction h with
  | nil => rfl
  | cons hab _ ih =>
    rw [List.zip_cons_cons, List.map_cons, List.map_cons,
      interpPuff_no_move dt _ _ hab, ih]

theorem morphTick_trigger (dt : ℚ) (tgt : List Puff) (st : MorphState)
    (hc : st.complete = false) (hlen : st.current.length = tgt.length)
    (h : List.Forall₂ (compGapLe 0.3) st.current tgt) :
    morphTick dt tgt st = ⟨st.current, true⟩ := by
  have hpad := adjustPuffCount_eq_self st.current tgt.length hlen
  simp only [morphTick, hc, Bool.false_eq_true, if_false, hpad,
    interp_zip_no_move dt h, hlen, lt_irrefl, not_false_iff, List.map_map]
  rw [MorphState.mk.injEq]
  refine ⟨by induction st.current with
    | nil => rfl
    | cons a l ih => rw [List.map_cons, ih]; rfl, ?_⟩
  simp [List.any_map, Function.comp]

theorem morphTick_invariant (dt b : ℚ) (hb : 0 ≤ b) (hr : |1 - 0.25 * dt| ≤ 1)
    (tgt : List Puff) (st : MorphState) (hc : st.complete = false)
    (h : List.Forall₂ (compGapLe (max 0.3 b)) (adjustPuffCount st.current tgt.length) tgt) :
    ∀ n : ℕ, 1 ≤ n →
      ((((morphTick dt tgt)^[n] st).complete = true ∧
          morphSettled tgt ((morphTick dt tgt)^[n] st)) ∨
       (((morphTick dt tgt)^[n] st).complete = false ∧
          List.Forall₂ (compGapLe (max 0.3 (|1 - 0.25 * dt| ^ n * b)))
            ((morphTick dt tgt)^[n] st).current tgt)) := by
  intro n hn
  induction n with
  | zero => omega
  | succ n ih =>
    rcases Nat.eq_zero_or_pos n with hn0 | hn1
    · subst hn0
      rw [Function.iterate_one]
      have step := morphTick_step dt b hb hr tgt st hc h
      rcases hcomp : (morphTick dt tgt st).complete with - | -
      · right
        refine ⟨rfl, ?_⟩
        have : max 0.3 (|1 - 0.25 * dt| ^ 1 * b) = max 0.3 (|1 - 0.25 * dt| * b) := by
          rw [pow_one]
        rw [this]
        exact step.1
      · left
        exact ⟨rfl, step.2 hcomp⟩
    · rcases ih hn1 with ⟨hcomp, hset⟩ | ⟨hcomp, hforall⟩
      · left
        rw [Function.iterate_succ_apply', morphTick_complete_frozen dt tgt _ hcomp]
        exact ⟨hcomp, hset⟩
      · have hlen := hforall.length_eq
        have hb' : 0 ≤ |1 - 0.25 * dt| ^ n * b :=
          mul_nonneg (pow_nonneg (abs_nonneg _) n) hb
        have hpad := adjustPuffCount_eq_self _ _ hlen
        have step := morphTick_step dt (|1 - 0.25 * dt| ^ n * b) hb' hr tgt _ hcomp
          (by rw [hpad]; exact hforall)
        rw [← Function.iterate_succ_apply' (morphTick dt tgt) n st] at step
        rcases hcomp' : ((morphTick dt tgt)^[n + 1] st).complete with - | -
        · right
          refine ⟨rfl, ?_⟩
          have heq : max 0.3 (|1 - 0.25 * dt| * (|1 - 0.25 * dt| ^ n * b))
              = max 0.3 (|1 - 0.25 * dt| ^ (n + 1) * b) := by
            rw [pow_succ]
            ring_nf
          rw [heq] at step
          exact step.1
        · left
          exact ⟨rfl, step.2 hcomp'⟩

theorem pow_mul_le_of_ticks (r D : ℚ) (hr0 : 0 ≤ r) (hr1 : r < 1) (hD : 0 ≤ D)
    (n : ℕ) (hn1 : 1 ≤ n) (hn : (10/3) * D * r ≤ (1 - r) * n) :
    r ^ n * D ≤ 0.3 := by
  rcases eq_or_lt_of_le hr0 with hr0' | hrpos
  · rw [← hr0', zero_pow (by omega), zero_mul]
    norm_num
  · rcases eq_or_lt_of_le hD with hD0 | hDpos
    · rw [← hD0, mul_zero]
      norm_num
    · have ha : (-2 : ℚ) ≤ (1 - r) / r :=
        le_trans (by norm_num) (div_nonneg (by linarith) hr0)
      have h0 := one_add_mul_le_pow ha n
      have hinv : (1 : ℚ) + (1 - r) / r = 1 / r := by field_simp
      rw [hinv, one_div, inv_pow] at h0
      have hspos : 0 < r ^ n := pow_pos hrpos n
      have key : r ^ n * (1 + (n : ℚ) * ((1 - r) / r)) ≤ 1 := by
        have hm := mul_le_mul_of_nonneg_left h0 hspos.le
        rwa [mul_inv_cancel₀ (ne_of_gt hspos)] at hm
      have key2 : r ^ n * ((n : ℚ) * (1 - r)) ≤ r := by
        have hmul := mul_le_mul_of_nonneg_right key hrpos.le
        have hexp : r ^ n * (1 + (n : ℚ) * ((1 - r) / r)) * r
            = r ^ n * r + r ^ n * ((n : ℚ) * (1 - r)) := by
          field_simp
          ring
        rw [hexp, one_mul] at hmul
        nlinarith [mul_nonneg hspos.le hrpos.le]
      by_contra hgt
      push_neg at hgt
      have hc1 : (10 / 3) * D * r * (r ^ n * D) ≤ (1 - r) * n * (r ^ n * D) :=
        mul_le_mul_of_nonneg_right hn (by positivity)
      have hc2 : (1 - r) * (n : ℚ) * (r ^ n * D) ≤ r * D := by
        calc (1 - r) * (n : ℚ) * (r ^ n * D)
            = (r ^ n * ((n : ℚ) * (1 - r))) * D := by ring
          _ ≤ r * D := mul_le_mul_of_nonneg_right key2 hD
      have hDr : 0 < (10 / 3 : ℚ) * D * r := by
        have := mul_pos hDpos hrpos
        nlinarith
      have hc3 : (10 / 3) * D * r * (0.3 : ℚ) < (10 / 3) * D * r * (r ^ n * D) :=
        mul_lt_mul_of_pos_left hgt hDr
      nlinarith [hc1, hc2, hc3]

theorem compGapLe_mono {b b' : ℚ} (hbb : b ≤ b') {c t : Puff}
    (h : compGapLe b c t) : compGapLe b' c t :=
  ⟨le_trans h.1 hbb, le_trans h.2.1 hbb, le_trans h.2.2 hbb⟩

/-- **C9** (amended): morph settlement holds for any fixed `deltaTime` with
`0 < dt < 8` (equivalently `morphSpeed * dt < 2`, so the per-tick contraction
factor `|1 - 0.25 * dt|` is below `1`).  Iterating the `update` morph block
from any starting puff list sets `morphComplete` within a number of ticks
linear in the initial maximum component gap (`maxGap` of the count-adjusted
start list against the target), and from that tick on the state is complete
and settled (every component within the `0.3` threshold) forever.  At
`dt = 8` the claim fails: see the divergence counterexample. -/
theorem morphTick_settles (dt : ℚ) (hdt0 : 0 < dt) (hdt8 : dt < 8)
    (tgt cur : List Puff) (n : ℕ)
    (hn : ⌈(10 / 3) * maxGap (adjustPuffCount cur tgt.length) tgt * |1 - 0.25 * dt|
          / (1 - |1 - 0.25 * dt|)⌉₊ + 2 ≤ n) :
    ((morphTick dt tgt)^[n] ⟨cur, false⟩).complete = true ∧
      morphSettled tgt ((morphTick dt tgt)^[n] ⟨cur, false⟩) := by
  have hr1 : |1 - 0.25 * dt| < 1 := abs_lt.mpr ⟨by linarith, by linarith⟩
  have hr0 : (0 : ℚ) ≤ |1 - 0.25 * dt| := abs_nonneg _
  have hD : 0 ≤ maxGap (adjustPuffCount cur tgt.length) tgt := maxGap_nonneg _ _
  have h : List.Forall₂
      (compGapLe (max 0.3 (maxGap (adjustPuffCount cur tgt.length) tgt)))
      (adjustPuffCount cur tgt.length) tgt := by
    refine List.forall₂_iff_zip.mpr ⟨adjustPuffCount_length cur tgt.length, ?_⟩
    intro a b hab
    exact compGapLe_mono (le_max_right _ _) (maxGap_spec _ _ (a, b) hab)
  have hfrozen : ∀ N : ℕ, N ≤ n →
      (((morphTick dt tgt)^[N] ⟨cur, false⟩).complete = true) →
      (morphTick dt tgt)^[n] ⟨cur, false⟩ = (morphTick dt tgt)^[N] ⟨cur, false⟩ := by
    intro N hN hcN
    have hsplit : n = (n - N) + N := by omega
    conv_lhs => rw [hsplit]
    rw [Function.iterate_add_apply, morphTick_iterate_frozen dt tgt _ hcN]
  rcases morphTick_invariant dt (maxGap (adjustPuffCount cur tgt.length) tgt) hD
      hr1.le tgt ⟨cur, false⟩ rfl h
      (⌈(10 / 3) * maxGap (adjustPuffCount cur tgt.length) tgt * |1 - 0.25 * dt|
        / (1 - |1 - 0.25 * dt|)⌉₊ + 1) (by omega) with hgood | ⟨hcomp, hforall⟩
  · rw [hfrozen _ (by omega) hgood.1]
    exact hgood
  · have hbound : (10 / 3) * maxGap (adjustPuffCount cur tgt.length) tgt
        * |1 - 0.25 * dt| ≤ (1 - |1 - 0.25 * dt|)
          * ((⌈(10 / 3) * maxGap (adjustPuffCount cur tgt.length) tgt
              * |1 - 0.25 * dt| / (1 - |1 - 0.25 * dt|)⌉₊ + 1 : ℕ) : ℚ) := by
      have hceil := Nat.le_ceil ((10 / 3)
        * maxGap (adjustPuffCount cur tgt.length) tgt * |1 - 0.25 * dt|
        / (1 - |1 - 0.25 * dt|))
      have h1r : (0 : ℚ) < 1 - |1 - 0.25 * dt| := by linarith
      rw [div_le_iff h1r] at hceil
      push_cast
      nlinarith
    have hsmall := pow_mul_le_of_ticks _ _ hr0 hr1 hD _ (by omega) hbound
    rw [max_eq_left hsmall] at hforall
    have htrig := morphTick_trigger dt tgt _ hcomp hforall.length_eq hforall
    have hstep : (morphTick dt tgt)^[⌈(10 / 3)
        * maxGap (adjustPuffCount cur tgt.length) tgt * |1 - 0.25 * dt|
        / (1 - |1 - 0.25 * dt|)⌉₊ + 2] ⟨cur, false⟩
        = ⟨((morphTick dt tgt)^[⌈(10 / 3)
            * maxGap (adjustPuffCount cur tgt.length) tgt * |1 - 0.25 * dt|
            / (1 - |1 - 0.25 * dt|)⌉₊ + 1] ⟨cur, false⟩).current, true⟩ := by
      rw [show (⌈(10 / 3) * maxGap (adjustPuffCount cur tgt.length) tgt
          * |1 - 0.25 * dt| / (1 - |1 - 0.25 * dt|)⌉₊ + 2)
          = (⌈(10 / 3) * maxGap (adjustPuffCount cur tgt.length) tgt
          * |1 - 0.25 * dt| / (1 - |1 - 0.25 * dt|)⌉₊ + 1) + 1 from rfl,
        Function.iterate_succ_apply', htrig]
    rw [hfrozen _ hn (by rw [hstep]), hstep]
    refine ⟨rfl, hforall.length_eq, ?_⟩
    intro p hp
    exact (List.forall₂_iff_zip.mp hforall).2 hp

/-- Witness for C9: at `dt = 4` with empty target and start lists the bound
evaluates to `2` ticks, after which the state is complete and settled. -/
theorem morphTick_settles_witness :
    ((morphTick 4 [])^[2] ⟨[], false⟩).complete = true ∧
      morphSettled [] ((morphTick 4 [])^[2] ⟨[], false⟩) :=
  morphTick_settles 4 (by norm_num) (by norm_num) [] [] 2
    (by norm_num [maxGap, adjustPuffCount])

/-- Counterexample for C9 as stated: at `deltaTime = 8` the interpolation
factor `morphSpeed * dt` equals `2`, so every moved component is reflected
across its target.  Starting one puff at `x = 10` with target `0`, the state
oscillates between `10` and `-10` forever and `morphComplete` is never set:
settlement fails for this fixed positive `deltaTime`. -/
theorem morphTick_divergence_cex :
    morphTick 8 [⟨0, 0, 0⟩] ⟨[⟨10, 0, 0⟩], false⟩ = ⟨[⟨-10, 0, 0⟩], false⟩ ∧
    morphTick 8 [⟨0, 0, 0⟩] ⟨[⟨-10, 0, 0⟩], false⟩ = ⟨[⟨10, 0, 0⟩], false⟩ ∧
    ¬ ∃ n : ℕ,
      ((morphTick 8 [⟨0, 0, 0⟩])^[n] ⟨[⟨10, 0, 0⟩], false⟩).complete = true := by
  have hA : morphTick 8 [⟨0, 0, 0⟩] ⟨[⟨10, 0, 0⟩], false⟩
      = ⟨[⟨-10, 0, 0⟩], false⟩ := by
    norm_num [morphTick, adjustPuffCount, interpPuff]
  have hB : morphTick 8 [⟨0, 0, 0⟩] ⟨[⟨-10, 0, 0⟩], false⟩
      = ⟨[⟨10, 0, 0⟩], false⟩ := by
    norm_num [morphTick, adjustPuffCount, interpPuff]
  have key : ∀ n : ℕ,
      (morphTick 8 [⟨0, 0, 0⟩])^[n] ⟨[⟨10, 0, 0⟩], false⟩ = ⟨[⟨10, 0, 0⟩], false⟩ ∨
      (morphTick 8 [⟨0, 0, 0⟩])^[n] ⟨[⟨10, 0, 0⟩], false⟩ = ⟨[⟨-10, 0, 0⟩], false⟩ := by
    intro n
    induction n with
    | zero => left; rfl
    | succ n ih =>
      rw [Function.iterate_succ_apply']
      rcases ih with h | h
      · rw [h, hA]
        right
        rfl
      · rw [h, hB]
        left
        rfl
  refine ⟨hA, hB, ?_⟩
  rintro ⟨n, hn⟩
  rcases key n with h | h <;> rw [h] at hn <;> exact Bool.false_ne_true hn
